/-
  Verification of the karl TUI configuration editor.

  This file shallowly embeds the core of the repository in Lean 4:
  the shared widget layer (text input, selector, toggle, confirm dialog,
  filtered list), the layered configuration data model and merge
  (packages/karl-tui/src/data.rs), and the application input dispatcher
  and form lifecycle (packages/karl-tui/src/app.rs).  Filesystem and
  process boundaries (config files, discovery directories, the external
  CLI) are modelled as explicit environment data carried in the state.
  Machine integers are modelled as Nat with explicit bounds where the
  Rust code uses u32 or u64; f64 values that only flow through JSON and
  text parsing are modelled as Rat.
-/
import Mathlib

set_option autoImplicit false

namespace Karl

/-! ## Key events (crossterm model)

Key events as delivered by the crossterm backend: a key code plus a
modifier set.  The application only ever inspects the CONTROL modifier,
so the modifier set is modelled as a single flag. -/

/-- Key codes the application matches on.  `other` stands for every
crossterm key code the source never names (function keys, page up, ...). -/
inductive KeyCode where
  | char (c : Char)
  | enter
  | esc
  | tab
  | backTab
  | backspace
  | delete
  | left
  | right
  | up
  | down
  | home
  | end'
  | other
  deriving DecidableEq, Repr

/-- Modifier state of a key event; only CONTROL is ever consulted. -/
structure KeyModifiers where
  ctrl : Bool
  deriving DecidableEq, Repr

/-- A key event: code plus modifiers. -/
structure KeyEvent where
  code : KeyCode
  mods : KeyModifiers
  deriving DecidableEq, Repr

/-- A key event without modifiers. -/
def plainKey (c : KeyCode) : KeyEvent := ⟨c, ⟨false⟩⟩

/-- A key event with the CONTROL modifier held. -/
def ctrlKey (c : KeyCode) : KeyEvent := ⟨c, ⟨true⟩⟩

/-! ## Association-list maps

`HashMap<String, V>` is modelled as an association list with unique
keys.  `insertS` replaces an existing binding in place or appends a new
one; since the Rust map is unordered, fixing this deterministic order is
a sound refinement of the source.  `lookupS` returns the first binding. -/

/-- Lookup in an association list (models `HashMap::get`). -/
def lookupS {β : Type} : List (String × β) → String → Option β
  | [], _ => none
  | (k', v) :: rest, k => if k' = k then some v else lookupS rest k

/-- Insert-or-replace in an association list (models `HashMap::insert`). -/
def insertS {β : Type} : List (String × β) → String → β → List (String × β)
  | [], k, v => [(k, v)]
  | (k', v') :: rest, k, v =>
      if k' = k then (k, v) :: rest else (k', v') :: insertS rest k v

/-- Remove a key (models `HashMap::remove`). -/
def removeS {β : Type} (m : List (String × β)) (k : String) : List (String × β) :=
  m.filter (fun p => !(p.1 == k))

/-- The keys of an association list. -/
def keysS {β : Type} (m : List (String × β)) : List String :=
  m.map Prod.fst

/-- Merge `entries` into `base`, entry by entry (models the
`for (k, v) in project { config.insert(k, v) }` loops of the merge). -/
def mergeS {β : Type} (base entries : List (String × β)) : List (String × β) :=
  entries.foldl (fun acc kv => insertS acc kv.1 kv.2) base

/-! ## Widgets

Embedded from `packages/cliffy-tui/src/widgets/` (the same widget
sources are duplicated into `packages/karl-tui/src/widgets/`, whose
`mod.rs` re-exports them).  Rust strings indexed by byte are modelled as
`List Char` with a character cursor. -/

/-- Rust `usize::checked_sub`: `none` exactly when the subtraction
would underflow. -/
def checked_sub (n m : Nat) : Option Nat :=
  if n < m then none else some (n - m)

/-- Simple text input widget (`widgets/text_input.rs`). -/
structure TextInput where
  value : List Char
  cursor : Nat
  placeholder : String
  deriving DecidableEq, Repr

namespace TextInput

def new : TextInput := { value := [], cursor := 0, placeholder := "" }

def with_placeholder (t : TextInput) (p : String) : TextInput :=
  { t with placeholder := p }

def with_value (t : TextInput) (v : String) : TextInput :=
  { t with value := v.data, cursor := v.data.length }

/-- Position after the last whitespace in `pre`, or 0
(`self.value[..cursor].rfind(whitespace).map(i+1).unwrap_or(0)`). -/
def word_start (pre : List Char) : Nat :=
  match pre.reverse.findIdx? (fun c => c.isWhitespace) with
  | none => 0
  | some i => pre.length - 1 - i + 1

/-- `handle_key` mutates the input and reports whether it consumed the
key.  Returns the updated widget and that flag. -/
def handle_key (t : TextInput) (key : KeyEvent) : TextInput × Bool :=
  match key.code with
  | .char c =>
      if key.mods.ctrl then
        if c = 'a' then ({ t with cursor := 0 }, true)
        else if c = 'e' then ({ t with cursor := t.value.length }, true)
        else if c = 'u' then ({ t with value := t.value.drop t.cursor, cursor := 0 }, true)
        else if c = 'k' then ({ t with value := t.value.take t.cursor }, true)
        else if c = 'w' then
          let start := word_start (t.value.take t.cursor)
          ({ t with value := t.value.take start ++ t.value.drop t.cursor,
                    cursor := start }, true)
        else (t, false)
      else
        ({ t with value := t.value.take t.cursor ++ c :: t.value.drop t.cursor,
                  cursor := t.cursor + 1 }, true)
  | .backspace =>
      if t.cursor > 0 then
        ({ t with cursor := t.cursor - 1, value := t.value.eraseIdx (t.cursor - 1) }, true)
      else (t, true)
  | .delete =>
      if t.cursor < t.value.length then
        ({ t with value := t.value.eraseIdx t.cursor }, true)
      else (t, true)
  | .left => (if t.cursor > 0 then { t with cursor := t.cursor - 1 } else t, true)
  | .right => (if t.cursor < t.value.length then { t with cursor := t.cursor + 1 } else t, true)
  | .home => ({ t with cursor := 0 }, true)
  | .end' => ({ t with cursor := t.value.length }, true)
  | _ => (t, false)

def clear (t : TextInput) : TextInput := { t with value := [], cursor := 0 }

def is_empty (t : TextInput) : Bool := t.value.isEmpty

/-- The current value as a `String` (Rust stores it as `String` directly). -/
def valueStr (t : TextInput) : String := String.mk t.value

end TextInput

/-- Selector widget for choosing from a list of options
(`karl-tui/src/widgets/selector.rs`). -/
structure Selector where
  options : List String
  selected : Nat
  deriving DecidableEq, Repr

namespace Selector

def new (options : List String) : Selector := { options := options, selected := 0 }

def select_by_value (s : Selector) (value : String) : Selector :=
  match s.options.findIdx? (fun o => o == value) with
  | some idx => { s with selected := idx }
  | none => s

def next (s : Selector) : Selector :=
  if !s.options.isEmpty then
    { s with selected := (s.selected + 1) % s.options.length }
  else s

def previous (s : Selector) : Selector :=
  if !s.options.isEmpty then
    { s with selected := match checked_sub s.selected 1 with
                         | some n => n
                         | none => s.options.length - 1 }
  else s

def selected_value (s : Selector) : Option String :=
  s.options[s.selected]?

def handle_key (s : Selector) (key : KeyEvent) : Selector × Bool :=
  match key.code with
  | .left => (s.previous, true)
  | .char 'h' => (s.previous, true)
  | .right => (s.next, true)
  | .char 'l' => (s.next, true)
  | .enter => (s.next, true)
  | .char ' ' => (s.next, true)
  | _ => (s, false)

def is_empty (s : Selector) : Bool := s.options.isEmpty

def len (s : Selector) : Nat := s.options.length

end Selector

/-- Toggle widget for boolean values (`karl-tui/src/widgets/toggle.rs`). -/
structure Toggle where
  value : Bool
  label : String
  deriving DecidableEq, Repr

namespace Toggle

def new (label : String) : Toggle := { value := false, label := label }

def with_value (t : Toggle) (value : Bool) : Toggle := { t with value := value }

def toggle (t : Toggle) : Toggle := { t with value := !t.value }

def handle_key (t : Toggle) (key : KeyEvent) : Toggle × Bool :=
  match key.code with
  | .char ' ' => (t.toggle, true)
  | .enter => (t.toggle, true)
  | _ => (t, false)

end Toggle

/-- Confirmation dialog state (`widgets/confirm_dialog.rs`).
`selected = true` means the confirm button is selected. -/
structure ConfirmDialog where
  title : String
  message : String
  confirm_label : String
  cancel_label : String
  selected : Bool
  deriving DecidableEq, Repr

namespace ConfirmDialog

def new (title message : String) : ConfirmDialog :=
  { title := title, message := message, confirm_label := "Yes",
    cancel_label := "No", selected := false }

def toggle (d : ConfirmDialog) : ConfirmDialog := { d with selected := !d.selected }

def select_confirm (d : ConfirmDialog) : ConfirmDialog := { d with selected := true }

def select_cancel (d : ConfirmDialog) : ConfirmDialog := { d with selected := false }

def is_confirmed (d : ConfirmDialog) : Bool := d.selected

end ConfirmDialog

/-- A list that supports filtering while preserving selection
(`widgets/filtered_list.rs`).  `list_state` models the selection stored
in the ratatui `ListState`. -/
structure FilteredList (α : Type) where
  items : List α
  filtered_indices : List Nat
  list_state : Option Nat
  filter : String
  deriving DecidableEq, Repr

namespace FilteredList

variable {α : Type}

def new (items : List α) : FilteredList α :=
  let filtered_indices := List.range items.length
  { items := items
    filtered_indices := filtered_indices
    list_state := if !filtered_indices.isEmpty then some 0 else none
    filter := "" }

def apply_filter (l : FilteredList α) (predicate : α → Bool) : FilteredList α :=
  let filtered_indices :=
    ((l.items.enum.filter (fun x => predicate x.2)).map Prod.fst)
  let list_state :=
    match l.list_state with
    | some selected =>
        if selected ≥ filtered_indices.length then
          (if filtered_indices.isEmpty then none else some 0)
        else some selected
    | none =>
        if !filtered_indices.isEmpty then some 0 else none
  { l with filtered_indices := filtered_indices, list_state := list_state }

def clear_filter (l : FilteredList α) : FilteredList α :=
  let filtered_indices := List.range l.items.length
  { l with
    filter := ""
    filtered_indices := filtered_indices
    list_state :=
      if !filtered_indices.isEmpty ∧ l.list_state.isNone then some 0
      else l.list_state }

def next (l : FilteredList α) : FilteredList α :=
  if l.filtered_indices.isEmpty then l
  else
    let i := match l.list_state with
      | some i => if i ≥ l.filtered_indices.length - 1 then 0 else i + 1
      | none => 0
    { l with list_state := some i }

def previous (l : FilteredList α) : FilteredList α :=
  if l.filtered_indices.isEmpty then l
  else
    let i := match l.list_state with
      | some i => if i = 0 then l.filtered_indices.length - 1 else i - 1
      | none => 0
    { l with list_state := some i }

/-- The selected item, if any (`selected()` in the source). -/
def selected (l : FilteredList α) : Option α :=
  (l.list_state.bind (fun i => l.filtered_indices[i]?)).bind (fun idx => l.items[idx]?)

/-- The selected absolute index into `items` (`selected_index()`). -/
def selected_index (l : FilteredList α) : Option Nat :=
  l.list_state.bind (fun i => l.filtered_indices[i]?)

def filtered_items (l : FilteredList α) : List α :=
  l.filtered_indices.filterMap (fun i => l.items[i]?)

def len (l : FilteredList α) : Nat := l.filtered_indices.length

def is_empty (l : FilteredList α) : Bool := l.filtered_indices.isEmpty

def total_len (l : FilteredList α) : Nat := l.items.length

end FilteredList

/-! ## Configuration data model (`packages/karl-tui/src/data.rs`)

JSON documents are modelled by the `Json` inductive; numbers are
modelled as `Rat` (JSON numeric literals denote finite decimal values,
which embed into the rationals; no claim depends on binary floating
point rounding).  The serde-derived serializers and deserializers of
the config structs are embedded below as `encode...` and `decode...`
functions following the derive attributes in the source. -/

/-- A JSON value (models `serde_json::Value`).  Object fields keep
document order; serde deserializes duplicate keys by last-wins insertion,
which the decoders below reproduce. -/
inductive Json where
  | null
  | bool (b : Bool)
  | num (q : Rat)
  | str (s : String)
  | arr (elems : List Json)
  | obj (fields : List (String × Json))
  deriving Inhabited

/-- Model configuration entry (`ModelConfig`): provider name, model id,
plus opaque extra fields preserved by `#[serde(flatten)]`. -/
structure ModelConfig where
  provider : String
  model : String
  extra : List (String × Json)

/-- Derived `Default` for `ModelConfig`. -/
def ModelConfig.default : ModelConfig :=
  { provider := "", model := "", extra := [] }

/-- Provider configuration entry (`ProviderConfig`), serde camelCase
with the `provider_type` field renamed to `type`. -/
structure ProviderConfig where
  provider_type : String
  base_url : Option String
  api_key : Option String
  auth_type : Option String
  extra : List (String × Json)

/-- Derived `Default` for `ProviderConfig`. -/
def ProviderConfig.default : ProviderConfig :=
  { provider_type := "", base_url := none, api_key := none,
    auth_type := none, extra := [] }

/-- Tool settings (`ToolsConfig`). -/
structure ToolsConfig where
  enabled : List String
  custom : List String
  deriving DecidableEq, Repr

/-- `default_tools()` in the source. -/
def default_tools : List String := ["bash", "read", "write", "edit"]

/-- Manual `Default` impl for `ToolsConfig`. -/
def ToolsConfig.default : ToolsConfig :=
  { enabled := default_tools, custom := [] }

/-- Retry and concurrency policy (`VolleyConfig`); the Rust fields are
`u32`, modelled as `Nat` with bounds enforced at the JSON boundary. -/
structure VolleyConfig where
  max_concurrent : Nat
  retry_attempts : Nat
  retry_backoff : String
  deriving DecidableEq, Repr

def default_max_concurrent : Nat := 3
def default_retry_attempts : Nat := 3
def default_retry_backoff : String := "exponential"

/-- Manual `Default` impl for `VolleyConfig`. -/
def VolleyConfig.default : VolleyConfig :=
  { max_concurrent := default_max_concurrent
    retry_attempts := default_retry_attempts
    retry_backoff := default_retry_backoff }

/-- Stack entry (`StackConfig`), serde camelCase, all fields optional.
`extends` is a Lean keyword, hence `extends'`.  `temperature` is an
`f64` in Rust, modelled as `Rat`; `timeout` is `u64` and `max_tokens`
is `u32`, modelled as `Nat` with bounds at the JSON boundary. -/
structure StackConfig where
  name : Option String
  extends' : Option String
  model : Option String
  temperature : Option Rat
  timeout : Option Nat
  max_tokens : Option Nat
  skill : Option String
  context : Option String
  context_file : Option String
  unrestricted : Option Bool
  deriving DecidableEq, Repr

/-- Derived `Default` for `StackConfig`. -/
def StackConfig.default : StackConfig :=
  { name := none, extends' := none, model := none, temperature := none,
    timeout := none, max_tokens := none, skill := none, context := none,
    context_file := none, unrestricted := none }

/-- Skill metadata from SKILL.md frontmatter (`SkillInfo`); paths are
modelled as strings. -/
structure SkillInfo where
  name : String
  description : String
  license : Option String
  path : String
  deriving DecidableEq, Repr

/-- Hook information (`HookInfo`). -/
structure HookInfo where
  name : String
  hook_type : String
  path : String
  deriving DecidableEq, Repr

/-- `fn default_model() -> String` in the source: the serde
deserialization default for the `defaultModel` field. -/
def default_model_fn : String := "fast"

/-- Karl configuration root (`KarlConfig`), serde camelCase, with the
`models`, `providers` and `stacks` maps and opaque flattened extras.
The `stacks` field is named `stacks'` because Mathlib reserves the
token `stacks`. -/
structure KarlConfig where
  default_model : String
  models : List (String × ModelConfig)
  providers : List (String × ProviderConfig)
  tools : ToolsConfig
  volley : VolleyConfig
  stacks' : List (String × StackConfig)
  extra : List (String × Json)

/-- Derived `Default` for `KarlConfig`: every field takes its own
default, so `default_model` is `String::default()`, the empty string
(the serde attribute `default = "default_model"` applies only when
deserializing a document with the field missing). -/
def KarlConfig.default : KarlConfig :=
  { default_model := ""
    models := []
    providers := []
    tools := ToolsConfig.default
    volley := VolleyConfig.default
    stacks' := []
    extra := [] }

/-! ## Serde serialization and deserialization

`save_config` writes `serde_json::to_string_pretty(config)` and
`load_config` parses with `serde_json::from_str`.  The text layer of
serde_json (JSON value to text and back) is the external library's
faithful bijection; the derive-generated structure layer is embedded
here: `encode...` is the `Serialize` impl, `decode...` the
`Deserialize` impl, following the serde attributes in `data.rs`. -/

/-- The named fields of `ModelConfig` (everything else is flattened
into `extra`). -/
def modelKnownKeys : List String := ["provider", "model"]

/-- The named fields of `ProviderConfig`. -/
def providerKnownKeys : List String := ["type", "baseUrl", "apiKey", "authType"]

/-- The named fields of `KarlConfig`. -/
def configKnownKeys : List String :=
  ["defaultModel", "models", "providers", "tools", "volley", "stacks"]

/-- Encode an optional string (Rust `Option<String>`: `None` is null). -/
def encodeOptString : Option String → Json
  | none => Json.null
  | some s => Json.str s

/-- Encode an optional number. -/
def encodeOptNum : Option Rat → Json
  | none => Json.null
  | some q => Json.num q

/-- Encode an optional unsigned integer. -/
def encodeOptNat : Option Nat → Json
  | none => Json.null
  | some n => Json.num (n : Rat)

/-- Encode an optional boolean. -/
def encodeOptBool : Option Bool → Json
  | none => Json.null
  | some b => Json.bool b

/-- The serialized fields of a `ModelConfig`: named fields first, then
the flattened extras. -/
def encodeModelFields (m : ModelConfig) : List (String × Json) :=
  ("provider", Json.str m.provider) :: ("model", Json.str m.model) :: m.extra

def encodeModelConfig (m : ModelConfig) : Json :=
  Json.obj (encodeModelFields m)

/-- The serialized fields of a `ProviderConfig`. -/
def encodeProviderFields (p : ProviderConfig) : List (String × Json) :=
  ("type", Json.str p.provider_type) ::
  ("baseUrl", encodeOptString p.base_url) ::
  ("apiKey", encodeOptString p.api_key) ::
  ("authType", encodeOptString p.auth_type) :: p.extra

def encodeProviderConfig (p : ProviderConfig) : Json :=
  Json.obj (encodeProviderFields p)

def encodeToolsConfig (t : ToolsConfig) : Json :=
  Json.obj [("enabled", Json.arr (t.enabled.map Json.str)),
            ("custom", Json.arr (t.custom.map Json.str))]

def encodeVolleyConfig (v : VolleyConfig) : Json :=
  Json.obj [("maxConcurrent", Json.num (v.max_concurrent : Rat)),
            ("retryAttempts", Json.num (v.retry_attempts : Rat)),
            ("retryBackoff", Json.str v.retry_backoff)]

/-- The serialized fields of a `StackConfig`. -/
def encodeStackFields (s : StackConfig) : List (String × Json) :=
  [("name", encodeOptString s.name),
   ("extends", encodeOptString s.extends'),
   ("model", encodeOptString s.model),
   ("temperature", encodeOptNum s.temperature),
   ("timeout", encodeOptNat s.timeout),
   ("maxTokens", encodeOptNat s.max_tokens),
   ("skill", encodeOptString s.skill),
   ("context", encodeOptString s.context),
   ("contextFile", encodeOptString s.context_file),
   ("unrestricted", encodeOptBool s.unrestricted)]

def encodeStackConfig (s : StackConfig) : Json :=
  Json.obj (encodeStackFields s)

/-- The serialized fields of a `KarlConfig`: named fields first, then
the flattened extras. -/
def encodeConfigFields (c : KarlConfig) : List (String × Json) :=
  ("defaultModel", Json.str c.default_model) ::
  ("models", Json.obj (c.models.map (fun kv => (kv.1, encodeModelConfig kv.2)))) ::
  ("providers", Json.obj (c.providers.map (fun kv => (kv.1, encodeProviderConfig kv.2)))) ::
  ("tools", encodeToolsConfig c.tools) ::
  ("volley", encodeVolleyConfig c.volley) ::
  ("stacks", Json.obj (c.stacks'.map (fun kv => (kv.1, encodeStackConfig kv.2)))) :: c.extra

def encodeKarlConfig (c : KarlConfig) : Json :=
  Json.obj (encodeConfigFields c)

/-- Decode a JSON string. -/
def asString? : Json → Option String
  | Json.str s => some s
  | _ => none

/-- Decode a JSON array of strings element by element (the serde `Vec`
visitor). -/
def asStringList : List Json → Option (List String)
  | [] => some []
  | j :: rest =>
      match asString? j, asStringList rest with
      | some s, some l => some (s :: l)
      | _, _ => none

/-- Decode an `Option<String>` value: missing or null is `None`, a
string is `Some`, anything else is a type error. -/
def decodeOptString : Option Json → Option (Option String)
  | none => some none
  | some Json.null => some none
  | some (Json.str s) => some (some s)
  | some _ => none

/-- Decode an `Option<String>` field. -/
def optStringField (fields : List (String × Json)) (k : String) : Option (Option String) :=
  decodeOptString (lookupS fields k)

/-- Decode an `Option<f64>` value. -/
def decodeOptNum : Option Json → Option (Option Rat)
  | none => some none
  | some Json.null => some none
  | some (Json.num q) => some (some q)
  | some _ => none

/-- Decode an `Option<f64>` field. -/
def optNumField (fields : List (String × Json)) (k : String) : Option (Option Rat) :=
  decodeOptNum (lookupS fields k)

/-- Decode a `u64` JSON number: an integer in `[0, 2^64)`. -/
def asU64? : Json → Option Nat
  | Json.num q => if q.den = 1 ∧ 0 ≤ q.num ∧ q.num < 2 ^ 64 then some q.num.toNat else none
  | _ => none

/-- Decode a `u32` JSON number: an integer in `[0, 2^32)`. -/
def asU32? : Json → Option Nat
  | Json.num q => if q.den = 1 ∧ 0 ≤ q.num ∧ q.num < 2 ^ 32 then some q.num.toNat else none
  | _ => none

/-- Decode an `Option<u64>` value. -/
def decodeOptU64 : Option Json → Option (Option Nat)
  | none => some none
  | some Json.null => some none
  | some (Json.num q) => (asU64? (Json.num q)).map some
  | some _ => none

/-- Decode an `Option<u64>` field. -/
def optU64Field (fields : List (String × Json)) (k : String) : Option (Option Nat) :=
  decodeOptU64 (lookupS fields k)

/-- Decode an `Option<u32>` value. -/
def decodeOptU32 : Option Json → Option (Option Nat)
  | none => some none
  | some Json.null => some none
  | some (Json.num q) => (asU32? (Json.num q)).map some
  | some _ => none

/-- Decode an `Option<u32>` field. -/
def optU32Field (fields : List (String × Json)) (k : String) : Option (Option Nat) :=
  decodeOptU32 (lookupS fields k)

/-- Decode an `Option<bool>` value. -/
def decodeOptBool : Option Json → Option (Option Bool)
  | none => some none
  | some Json.null => some none
  | some (Json.bool b) => some (some b)
  | some _ => none

/-- Decode an `Option<bool>` field. -/
def optBoolField (fields : List (String × Json)) (k : String) : Option (Option Bool) :=
  decodeOptBool (lookupS fields k)

def decodeModelConfig (j : Json) : Option ModelConfig :=
  match j with
  | Json.obj fields =>
      match lookupS fields "provider", lookupS fields "model" with
      | some (Json.str p), some (Json.str m) =>
          some { provider := p, model := m,
                 extra := fields.filter (fun f => !(modelKnownKeys.contains f.1)) }
      | _, _ => none
  | _ => none

def decodeProviderConfig (j : Json) : Option ProviderConfig :=
  match j with
  | Json.obj fields =>
      let pt? : Option String :=
        match lookupS fields "type" with
        | none => some ""
        | some (Json.str s) => some s
        | some _ => none
      match pt?, optStringField fields "baseUrl", optStringField fields "apiKey",
            optStringField fields "authType" with
      | some pt, some bu, some ak, some au =>
          some { provider_type := pt, base_url := bu, api_key := ak, auth_type := au,
                 extra := fields.filter (fun f => !(providerKnownKeys.contains f.1)) }
      | _, _, _, _ => none
  | _ => none

def decodeToolsConfig (j : Json) : Option ToolsConfig :=
  match j with
  | Json.obj fields =>
      let en? : Option (List String) :=
        match lookupS fields "enabled" with
        | none => some default_tools
        | some (Json.arr xs) => asStringList xs
        | some _ => none
      let cu? : Option (List String) :=
        match lookupS fields "custom" with
        | none => some []
        | some (Json.arr xs) => asStringList xs
        | some _ => none
      match en?, cu? with
      | some en, some cu => some { enabled := en, custom := cu }
      | _, _ => none
  | _ => none

/-- A `u32` field with a serde default for a missing key. -/
def u32FieldOr (fields : List (String × Json)) (k : String) (dflt : Nat) : Option Nat :=
  match lookupS fields k with
  | none => some dflt
  | some j' => asU32? j'

/-- A string field with a serde default for a missing key. -/
def strFieldOr (fields : List (String × Json)) (k : String) (dflt : String) :
    Option String :=
  match lookupS fields k with
  | none => some dflt
  | some (Json.str s) => some s
  | some _ => none

def decodeVolleyConfig (j : Json) : Option VolleyConfig :=
  match j with
  | Json.obj fields => do
      let mc ← u32FieldOr fields "maxConcurrent" default_max_concurrent
      let ra ← u32FieldOr fields "retryAttempts" default_retry_attempts
      let rb ← strFieldOr fields "retryBackoff" default_retry_backoff
      pure { max_concurrent := mc, retry_attempts := ra, retry_backoff := rb }
  | _ => none

def decodeStackConfig (j : Json) : Option StackConfig :=
  match j with
  | Json.obj fields => do
      let name ← optStringField fields "name"
      let ext ← optStringField fields "extends"
      let model ← optStringField fields "model"
      let temp ← optNumField fields "temperature"
      let timeout ← optU64Field fields "timeout"
      let maxTok ← optU32Field fields "maxTokens"
      let skill ← optStringField fields "skill"
      let context ← optStringField fields "context"
      let cf ← optStringField fields "contextFile"
      let unr ← optBoolField fields "unrestricted"
      pure { name := name, extends' := ext, model := model, temperature := temp,
             timeout := timeout, max_tokens := maxTok, skill := skill,
             context := context, context_file := cf, unrestricted := unr }
  | _ => none

/-- The serde map visitor: decode each value and insert into the map in
document order (`HashMap` insertion is last-wins on duplicate keys). -/
def decodeMapGo {β : Type} (dec : Json → Option β) :
    List (String × β) → List (String × Json) → Option (List (String × β))
  | acc, [] => some acc
  | acc, (k, j) :: rest =>
      match dec j with
      | none => none
      | some v => decodeMapGo dec (insertS acc k v) rest

/-- The `defaultModel` field decoder of `KarlConfig` (serde default applies
when the key is missing). -/
def dmField (fields : List (String × Json)) : Option String :=
  match lookupS fields "defaultModel" with
  | none => some default_model_fn
  | some (Json.str s) => some s
  | some _ => none

/-- A defaulted map field decoder of `KarlConfig`. -/
def mapField {β : Type} (dec : Json → Option β) (fields : List (String × Json))
    (k : String) : Option (List (String × β)) :=
  match lookupS fields k with
  | none => some []
  | some (Json.obj ms) => decodeMapGo dec [] ms
  | some _ => none

/-- The `tools` field decoder of `KarlConfig`. -/
def toolsField (fields : List (String × Json)) : Option ToolsConfig :=
  match lookupS fields "tools" with
  | none => some ToolsConfig.default
  | some j' => decodeToolsConfig j'

/-- The `volley` field decoder of `KarlConfig`. -/
def volleyField (fields : List (String × Json)) : Option VolleyConfig :=
  match lookupS fields "volley" with
  | none => some VolleyConfig.default
  | some j' => decodeVolleyConfig j'

def decodeKarlConfig (j : Json) : Option KarlConfig :=
  match j with
  | Json.obj fields => do
      let dm ← dmField fields
      let models ← mapField decodeModelConfig fields "models"
      let providers ← mapField decodeProviderConfig fields "providers"
      let tools ← toolsField fields
      let volley ← volleyField fields
      let stackMap ← mapField decodeStackConfig fields "stacks"
      pure { default_model := dm, models := models, providers := providers,
             tools := tools, volley := volley, stacks' := stackMap,
             extra := fields.filter (fun f => !(configKnownKeys.contains f.1)) }
  | _ => none

/-! ### Well-formed configurations

Invariants every in-memory configuration reachable through
`load_merged_config` satisfies: map keys are unique (`HashMap`), the
flattened extra fields never collide with named fields (serde collects
only the leftover keys into them), and the numeric fields fit their
Rust integer types. -/

/-- Extra fields of a model entry avoid its named fields. -/
def WFModelConfig (m : ModelConfig) : Prop :=
  ∀ k ∈ keysS m.extra, k ∉ modelKnownKeys

/-- Extra fields of a provider entry avoid its named fields. -/
def WFProviderConfig (p : ProviderConfig) : Prop :=
  ∀ k ∈ keysS p.extra, k ∉ providerKnownKeys

/-- Stack numeric fields fit `u64` and `u32`. -/
def WFStackConfig (s : StackConfig) : Prop :=
  (∀ t, s.timeout = some t → t < 2 ^ 64) ∧
  (∀ t, s.max_tokens = some t → t < 2 ^ 32)

/-- Volley numeric fields fit `u32`. -/
def WFVolleyConfig (v : VolleyConfig) : Prop :=
  v.max_concurrent < 2 ^ 32 ∧ v.retry_attempts < 2 ^ 32

/-- Well-formed configuration. -/
def WFKarlConfig (c : KarlConfig) : Prop :=
  (keysS c.models).Nodup ∧ (∀ kv ∈ c.models, WFModelConfig kv.2) ∧
  (keysS c.providers).Nodup ∧ (∀ kv ∈ c.providers, WFProviderConfig kv.2) ∧
  (keysS c.stacks').Nodup ∧ (∀ kv ∈ c.stacks', WFStackConfig kv.2) ∧
  WFVolleyConfig c.volley ∧
  (∀ k ∈ keysS c.extra, k ∉ configKnownKeys)

/-! ## Layered configuration load (`load_merged_config`)

A configuration layer on disk is either absent, unreadable (exists but
`fs::read_to_string` fails), or present with some JSON content.  A
present layer whose content does not decode corresponds to an
unparsable file. -/

/-- One configuration file layer as seen by `load_merged_config`. -/
inductive LayerFile where
  | absent
  | unreadable
  | present (j : Json)

/-- `global_config_path()`: `Some` whenever a home directory exists
(modelled as always available). -/
def global_config_path : Option String := some "~/.config/karl/karl.json"

/-- `project_config_path()`. -/
def project_config_path : String := ".karl.json"

/-- `load_config`: read and parse one layer; any failure is an error. -/
def load_config : LayerFile → Option KarlConfig
  | LayerFile.present j => decodeKarlConfig j
  | _ => none

/-- `load_merged_config`: start from the derived defaults, let a valid
global layer replace the whole configuration, then merge a valid
project layer key-by-key (models, providers, stacks), overwrite the
default model if the project sets a non-empty one, and point the save
target at the project file.  An unreadable layer takes the same skip
path as a present-but-undecodable one (`load_config` errors on both);
the match is written with all constructors explicit. -/
def load_merged_config (globalFile projectFile : LayerFile) : KarlConfig × String :=
  let config := KarlConfig.default
  let config_path := global_config_path.getD ".karl.json"
  let st :=
    match globalFile with
    | LayerFile.absent => (config, config_path)
    | LayerFile.unreadable => (config, config_path)
    | LayerFile.present j =>
        match global_config_path with
        | none => (config, config_path)
        | some global_path =>
            match decodeKarlConfig j with
            | some global_config => (global_config, global_path)
            | none => (config, config_path)
  match projectFile with
  | LayerFile.absent => st
  | LayerFile.unreadable => st
  | LayerFile.present j =>
      match decodeKarlConfig j with
      | some project_config =>
          ({ st.1 with
              models := mergeS st.1.models project_config.models
              providers := mergeS st.1.providers project_config.providers
              stacks' := mergeS st.1.stacks' project_config.stacks'
              default_model :=
                if !(project_config.default_model == "") then project_config.default_model
                else st.1.default_model },
           project_config_path)
      | none => st

/-- The `Result`-typed wrapper: the function body always returns `Ok`. -/
def load_merged_config_result (globalFile projectFile : LayerFile) :
    Except String (KarlConfig × String) :=
  Except.ok (load_merged_config globalFile projectFile)

/-! ## Application layer (`packages/karl-tui/src/app.rs`) -/

/-! ### Rust numeric string parsing

`str::parse::<u64>` / `::<u32>` accept an optional leading `+` followed
by one or more ASCII digits, rejecting overflow.  `str::parse::<f64>`
accepts an optional sign, then `inf`, `infinity`, `nan`
(case-insensitive) or a decimal mantissa with optional fraction and
optional decimal exponent.  Values are modelled in `Rat` (the `inf` and
`nan` forms are mapped to 0: only parse success is ever observed by the
embedded code paths that use them). -/

/-- Digit-string value, assuming all characters are ASCII digits. -/
def digitsVal (cs : List Char) : Nat :=
  cs.foldl (fun acc c => acc * 10 + (c.toNat - 48)) 0

/-- Parse a non-empty all-digit string. -/
def parseDigits (cs : List Char) : Option Nat :=
  if !cs.isEmpty ∧ cs.all Char.isDigit then some (digitsVal cs) else none

/-- Rust `str::parse::<u64>`. -/
def parse_u64 (s : String) : Option Nat :=
  let cs := match s.data with
    | '+' :: r => r
    | r => r
  match parseDigits cs with
  | some v => if v < 2 ^ 64 then some v else none
  | none => none

/-- Rust `str::parse::<u32>`. -/
def parse_u32 (s : String) : Option Nat :=
  let cs := match s.data with
    | '+' :: r => r
    | r => r
  match parseDigits cs with
  | some v => if v < 2 ^ 32 then some v else none
  | none => none

/-- Split a character list at the first `e`/`E`, if any. -/
def splitOnExp (cs : List Char) : List Char × Option (List Char) :=
  match cs.findIdx? (fun c => c == 'e' || c == 'E') with
  | none => (cs, none)
  | some i => (cs.take i, some (cs.drop (i + 1)))

/-- Parse a decimal mantissa `Digits | Digits . Digits? | . Digits`
into a rational. -/
def parseMantissa (cs : List Char) : Option Rat :=
  match cs.findIdx? (fun c => c == '.') with
  | none => (parseDigits cs).map (fun n => (n : Rat))
  | some i =>
      let intCs := cs.take i
      let fracCs := cs.drop (i + 1)
      if intCs.isEmpty ∧ fracCs.isEmpty then none
      else if !intCs.all Char.isDigit then none
      else if !fracCs.all Char.isDigit then none
      else some ((digitsVal intCs : Rat) +
                 (digitsVal fracCs : Rat) / ((10 : Rat) ^ fracCs.length))

/-- Parse a signed decimal exponent. -/
def parseExp (cs : List Char) : Option Int :=
  match cs with
  | '+' :: r => (parseDigits r).map (fun n => (n : Int))
  | '-' :: r => (parseDigits r).map (fun n => -(n : Int))
  | r => (parseDigits r).map (fun n => (n : Int))

/-- Rust `str::parse::<f64>` (value modelled in `Rat`). -/
def parse_f64 (s : String) : Option Rat :=
  let (sign, rest) := match s.data with
    | '+' :: r => ((1 : Rat), r)
    | '-' :: r => ((-1 : Rat), r)
    | r => ((1 : Rat), r)
  let lower := String.mk (rest.map Char.toLower)
  if lower = "inf" ∨ lower = "infinity" ∨ lower = "nan" then some 0
  else
    let (mant, exp?) := splitOnExp rest
    match parseMantissa mant with
    | none => none
    | some m =>
        match exp? with
        | none => some (sign * m)
        | some expCs =>
            match parseExp expCs with
            | none => none
            | some e =>
                if e ≥ 0 then some (sign * m * (10 : Rat) ^ e.toNat)
                else some (sign * m / (10 : Rat) ^ (-e).toNat)

/-! ### Kernel-computable string operations

The built-in `String.trim`, `String.toLower`, `String.intercalate` and
friends are implemented over UTF-8 byte positions and do not reduce in
the kernel; the following equivalents over the underlying character
lists model the corresponding Rust `str` operations and evaluate on
closed inputs. -/

/-- Rust `str::trim` (drops Unicode whitespace at both ends). -/
def trimStr (s : String) : String :=
  String.mk (((s.data.dropWhile Char.isWhitespace).reverse.dropWhile
    Char.isWhitespace).reverse)

/-- Rust `str::is_empty`. -/
def strIsEmpty (s : String) : Bool := s.data.isEmpty

/-- Rust `str::to_lowercase` (ASCII-adequate model). -/
def lowerStr (s : String) : String := String.mk (s.data.map Char.toLower)

/-- Rust `[String]::join(sep)`. -/
def joinWith (sep : String) : List String → String
  | [] => ""
  | [x] => x
  | x :: xs => String.mk (x.data ++ sep.data ++ (joinWith sep xs).data)

/-- Split on a newline character (models Rust `str::lines` closely
enough for pre-filling the edit form). -/
def splitOnNl : List Char → List (List Char)
  | [] => [[]]
  | c :: rest =>
      let r := splitOnNl rest
      if c = '\n' then [] :: r
      else
        match r with
        | [] => [[c]]
        | hd :: tl => (c :: hd) :: tl

/-! ### External text area widget

`tui_textarea::TextArea` is an external crate; the application only
feeds it key events opaquely and reads back its lines.  It is modelled
as a list of lines with a minimal input model (which no claim depends
on). -/

/-- Model of `tui_textarea::TextArea`. -/
structure TextArea where
  lines : List String
  deriving DecidableEq, Repr

namespace TextArea

def default : TextArea := { lines := [""] }

def new (ls : List String) : TextArea := { lines := ls }

/-- Minimal model of text-area editing. -/
def input (ta : TextArea) (key : KeyEvent) : TextArea :=
  match key.code with
  | KeyCode.char c =>
      match ta.lines.reverse with
      | [] => { lines := [String.mk [c]] }
      | last :: revInit => { lines := revInit.reverse ++ [String.mk (last.data ++ [c])] }
  | KeyCode.enter => { lines := ta.lines ++ [""] }
  | KeyCode.backspace =>
      match ta.lines.reverse with
      | [] => ta
      | last :: revInit =>
          if strIsEmpty last then { lines := revInit.reverse }
          else { lines := revInit.reverse ++ [String.mk last.data.dropLast] }
  | _ => ta

end TextArea

/-! ### Forms -/

/-- Form mode for create vs edit. -/
inductive FormMode where
  | Create
  | Edit
  deriving DecidableEq, Repr

/-- Provider option for the wizard and the model form
(`ProviderOption`). -/
structure ProviderOption where
  key : String
  name : String
  auth_type : String
  provider_type : String
  default_models : List (String × String)
  deriving DecidableEq, Repr

namespace ProviderOption

def CLAUDE_PRO_MAX : ProviderOption :=
  { key := "claude-pro-max"
    name := "Claude Pro/Max"
    auth_type := "oauth"
    provider_type := "anthropic"
    default_models :=
      [("haiku", "claude-haiku-4-5-20251001"),
       ("sonnet", "claude-sonnet-4-5-20250929"),
       ("opus", "claude-opus-4-5-20251101")] }

def ANTHROPIC : ProviderOption :=
  { key := "anthropic"
    name := "Anthropic API"
    auth_type := "api_key"
    provider_type := "anthropic"
    default_models :=
      [("fast", "claude-sonnet-4-20250514"),
       ("smart", "claude-opus-4-20250514"),
       ("haiku", "claude-haiku-3-5-20241022")] }

def OPENROUTER : ProviderOption :=
  { key := "openrouter"
    name := "OpenRouter"
    auth_type := "api_key"
    provider_type := "openai"
    default_models :=
      [("mistral-small", "mistralai/mistral-small-creative"),
       ("devstral", "mistralai/devstral-2512:free"),
       ("mimo", "xiaomi/mimo-v2-flash:free"),
       ("grok", "x-ai/grok-4.1-fast")] }

def all : List ProviderOption := [CLAUDE_PRO_MAX, ANTHROPIC, OPENROUTER]

/-- Available model ids for a provider key (empty for unknown). -/
def models_for_provider (key : String) : List String :=
  match all.find? (fun p => p.key == key) with
  | some p => p.default_models.map Prod.snd
  | none => []

end ProviderOption

/-- Model edit/create form (`ModelForm`). -/
structure ModelForm where
  mode : FormMode
  original_alias : Option String
  focused_field : Nat
  alias' : TextInput
  provider : Selector
  model : Selector
  set_as_default : Toggle
  deriving DecidableEq, Repr

namespace ModelForm

def new_create (providers : List String) : ModelForm :=
  let first_provider := (providers.head?).getD ""
  let models := ProviderOption.models_for_provider first_provider
  { mode := FormMode.Create
    original_alias := none
    focused_field := 0
    alias' := TextInput.new.with_placeholder "e.g., fast, smart, claude"
    provider := Selector.new providers
    model := Selector.new models
    set_as_default := Toggle.new "Set as default model" }

def new_edit (alias_ : String) (config : ModelConfig) (is_default : Bool)
    (providers : List String) : ModelForm :=
  let provider_selector := (Selector.new providers).select_by_value config.provider
  let models := ProviderOption.models_for_provider config.provider
  let model_selector := (Selector.new models).select_by_value config.model
  { mode := FormMode.Edit
    original_alias := some alias_
    focused_field := 0
    alias' := TextInput.new.with_value alias_
    provider := provider_selector
    model := model_selector
    set_as_default := (Toggle.new "Set as default model").with_value is_default }

def field_count : Nat := 4

def next_field (f : ModelForm) : ModelForm :=
  { f with focused_field := (f.focused_field + 1) % field_count }

def prev_field (f : ModelForm) : ModelForm :=
  { f with focused_field :=
      match checked_sub f.focused_field 1 with
      | some n => n
      | none => field_count - 1 }

def selected_provider (f : ModelForm) : Option String :=
  f.provider.selected_value

/-- Update model options when the provider changes. -/
def update_model_options (f : ModelForm) : ModelForm :=
  match f.provider.selected_value with
  | some provider_key =>
      { f with model := Selector.new (ProviderOption.models_for_provider provider_key) }
  | none => f

def validate (f : ModelForm) : List String :=
  (if strIsEmpty (trimStr f.alias'.valueStr) then ["Alias is required"] else []) ++
  (if f.provider.is_empty then ["No providers configured"] else []) ++
  (if f.model.selected_value.isNone then ["Model is required"] else [])

end ModelForm

/-- Stack edit/create form (`StackForm`). -/
structure StackForm where
  mode : FormMode
  original_name : Option String
  focused_field : Nat
  name : TextInput
  extends' : TextInput
  model : TextInput
  temperature : TextInput
  timeout : TextInput
  max_tokens : TextInput
  skill : TextInput
  context : TextArea
  context_file : TextInput
  unrestricted : Toggle
  deriving DecidableEq, Repr

namespace StackForm

def new_create : StackForm :=
  { mode := FormMode.Create
    original_name := none
    focused_field := 0
    name := TextInput.new.with_placeholder "e.g., codex-architect"
    extends' := TextInput.new.with_placeholder "Base stack to extend (optional)"
    model := TextInput.new.with_placeholder "Model alias (optional)"
    temperature := TextInput.new.with_placeholder "0.0 - 2.0 (optional)"
    timeout := TextInput.new.with_placeholder "Timeout in ms (optional)"
    max_tokens := TextInput.new.with_placeholder "Max tokens (optional)"
    skill := TextInput.new.with_placeholder "Skill name (optional)"
    context := TextArea.default
    context_file := TextInput.new.with_placeholder "Path to context file (optional)"
    unrestricted := Toggle.new "Unrestricted mode" }

/-- Rust `f64::to_string` / integer `to_string`, used when pre-filling
the edit form; modelled via `Rat` and `Nat` rendering. -/
def ratToString (q : Rat) : String := toString q

def new_edit (name : String) (config : StackConfig) : StackForm :=
  let context := match config.context with
    | some ctx => TextArea.new ((splitOnNl ctx.data).map String.mk)
    | none => TextArea.default
  { mode := FormMode.Edit
    original_name := some name
    focused_field := 0
    name := TextInput.new.with_value name
    extends' := TextInput.new.with_value ((config.extends').getD "")
    model := TextInput.new.with_value ((config.model).getD "")
    temperature := TextInput.new.with_value
      ((config.temperature.map ratToString).getD "")
    timeout := TextInput.new.with_value
      ((config.timeout.map toString).getD "")
    max_tokens := TextInput.new.with_value
      ((config.max_tokens.map toString).getD "")
    skill := TextInput.new.with_value ((config.skill).getD "")
    context := context
    context_file := TextInput.new.with_value ((config.context_file).getD "")
    unrestricted := (Toggle.new "Unrestricted mode").with_value
      ((config.unrestricted).getD false) }

def field_count : Nat := 10

def next_field (f : StackForm) : StackForm :=
  { f with focused_field := (f.focused_field + 1) % field_count }

def prev_field (f : StackForm) : StackForm :=
  { f with focused_field :=
      match checked_sub f.focused_field 1 with
      | some n => n
      | none => field_count - 1 }

def validate (f : StackForm) : List String :=
  (if strIsEmpty (trimStr f.name.valueStr) then ["Name is required"] else []) ++
  (if !strIsEmpty (trimStr f.temperature.valueStr) then
     (if (parse_f64 (trimStr f.temperature.valueStr)).isNone then
        ["Temperature must be a number"] else [])
   else []) ++
  (if !strIsEmpty (trimStr f.timeout.valueStr) then
     (if (parse_u64 (trimStr f.timeout.valueStr)).isNone then
        ["Timeout must be a positive number"] else [])
   else []) ++
  (if !strIsEmpty (trimStr f.max_tokens.valueStr) then
     (if (parse_u32 (trimStr f.max_tokens.valueStr)).isNone then
        ["Max tokens must be a positive number"] else [])
   else [])

end StackForm

/-- Tool add form (`ToolForm`). -/
structure ToolForm where
  path : TextInput
  deriving DecidableEq, Repr

namespace ToolForm

def new : ToolForm :=
  { path := TextInput.new.with_placeholder "Path to custom tool executable" }

def validate (f : ToolForm) : List String :=
  if strIsEmpty (trimStr f.path.valueStr) then ["Path is required"] else []

end ToolForm

/-! ### Sections, views, items -/

/-- Sections on the page (`Section`). -/
inductive Section where
  | Settings
  | Models
  | Stacks
  | Skills
  | Tools
  | Hooks
  deriving DecidableEq, Repr

namespace Section

def next : Section → Section
  | Settings => Models
  | Models => Stacks
  | Stacks => Skills
  | Skills => Tools
  | Tools => Hooks
  | Hooks => Settings

def prev : Section → Section
  | Settings => Hooks
  | Models => Settings
  | Stacks => Models
  | Skills => Stacks
  | Tools => Skills
  | Hooks => Tools

def from_number : Nat → Option Section
  | 1 => some Settings
  | 2 => some Models
  | 3 => some Stacks
  | 4 => some Skills
  | 5 => some Tools
  | 6 => some Hooks
  | _ => none

end Section

/-- View mode within a section (`View`). -/
inductive View where
  | List
  | Detail
  | Edit
  | Create
  | Confirm
  deriving DecidableEq, Repr

/-- Input mode (`InputMode`). -/
inductive InputMode where
  | Normal
  | Search
  | Editing
  deriving DecidableEq, Repr

/-- Model list item. -/
structure ModelItem where
  alias' : String
  config : ModelConfig

/-- Stack list item. -/
structure StackItem where
  name : String
  config : StackConfig
  source : String

/-- Tool list item. -/
structure ToolItem where
  name : String
  enabled : Bool
  is_builtin : Bool
  deriving DecidableEq, Repr

/-- Pending action awaiting confirmation (`PendingAction`). -/
inductive PendingAction where
  | DeleteModel (alias' : String)
  | DeleteStack (name : String)
  | DeleteTool (path : String)
  | Quit
  deriving DecidableEq, Repr

/-! ### Init wizard -/

/-- Init wizard step (`InitStep`). -/
inductive InitStep where
  | Welcome
  | SelectProvider
  | AuthenticateOAuth
  | AuthenticateApiKey
  | CreateModel
  | Confirm
  deriving DecidableEq, Repr

/-- OAuth progress (`OAuthStatus`). -/
inductive OAuthStatus where
  | NotStarted
  | InProgress
  | Success
  | Failed (msg : String)
  deriving DecidableEq, Repr

/-- Init wizard state (`InitWizard`). -/
structure InitWizard where
  step : InitStep
  provider_index : Nat
  api_key : TextInput
  model_alias : TextInput
  model_selector : Selector
  oauth_status : OAuthStatus
  error_message : Option String
  model_focused_field : Nat
  deriving DecidableEq, Repr

namespace InitWizard

def new : InitWizard :=
  let first_provider := ProviderOption.CLAUDE_PRO_MAX
  let model_options := first_provider.default_models.map Prod.snd
  { step := InitStep.Welcome
    provider_index := 0
    api_key := TextInput.new.with_placeholder "Enter your API key"
    model_alias := TextInput.new.with_value "fast"
    model_selector := Selector.new model_options
    oauth_status := OAuthStatus.NotStarted
    error_message := none
    model_focused_field := 0 }

/-- `ProviderOption::all()[self.provider_index]`; the index is always
in range (maintained modulo 3), so the fallback is never reached. -/
def selected_provider (w : InitWizard) : ProviderOption :=
  (ProviderOption.all[w.provider_index]?).getD ProviderOption.CLAUDE_PRO_MAX

def update_model_options (w : InitWizard) : InitWizard :=
  let provider := w.selected_provider
  { w with model_selector := Selector.new (provider.default_models.map Prod.snd) }

def next_provider (w : InitWizard) : InitWizard :=
  let count := ProviderOption.all.length
  ({ w with provider_index := (w.provider_index + 1) % count }).update_model_options

def prev_provider (w : InitWizard) : InitWizard :=
  let count := ProviderOption.all.length
  ({ w with provider_index :=
      match checked_sub w.provider_index 1 with
      | some n => n
      | none => count - 1 }).update_model_options

def selected_model (w : InitWizard) : Option String :=
  w.model_selector.selected_value

end InitWizard

/-! ### CLI integration (`cli.rs`)

The external CLI boundary: status of the background `karl info --json`
fetch.  The payload of `Loaded` is read-only render data from the
external process and is not modelled. -/

/-- CLI fetch status (`CliStatus`); `Loaded` carries only external
render data, elided here. -/
inductive CliStatus where
  | Loading
  | Loaded
  | Error (msg : String)
  | NotAvailable
  deriving DecidableEq, Repr

/-! ### Discovery (read-side views over the filesystem)

Discovery walks fixed directories; the parsed per-file results are
supplied by the environment fields of `App`.  Sorting uses a stable
insertion sort, matching the stable `sort_by` on names in the source. -/

/-- Stable insertion into a list sorted by `key`. -/
def insertByName {α : Type} (key : α → String) (x : α) : List α → List α
  | [] => [x]
  | y :: ys => if key x < key y then x :: y :: ys else y :: insertByName key x ys

/-- Stable sort by `key` (models Rust `sort_by` with `String::cmp`). -/
def sortByName {α : Type} (key : α → String) (l : List α) : List α :=
  l.foldl (fun acc x => insertByName key x acc) []

/-- `discover_stacks`: inline stacks from the configuration, then
file-based stacks that do not duplicate an inline name, sorted by
name.  `env_files` is the parsed content of the stack directories. -/
def discover_stacks (config : KarlConfig)
    (env_files : List (String × StackConfig × String)) :
    List (String × StackConfig × String) :=
  let inline := config.stacks'.map (fun kv => (kv.1, kv.2, "inline"))
  let merged := env_files.foldl
    (fun acc nsp => if acc.any (fun x => x.1 == nsp.1) then acc else acc ++ [nsp])
    inline
  sortByName (fun x => x.1) merged

/-- `discover_skills`: parsed skills from the two search roots, sorted
by name. -/
def discover_skills (env_skills : List SkillInfo) : List SkillInfo :=
  sortByName (fun s => s.name) env_skills

/-- `discover_hooks`: hook files from the two search roots, sorted by
name. -/
def discover_hooks (env_hooks : List HookInfo) : List HookInfo :=
  sortByName (fun h => h.name) env_hooks

/-- Needle occurs as a prefix of some suffix of the haystack. -/
def containsSubstrAux (needle : List Char) : List Char → Bool
  | [] => needle.isEmpty
  | c :: rest => needle.isPrefixOf (c :: rest) || containsSubstrAux needle rest

/-- Rust `String::contains` (substring test). -/
def containsSubstr (hay needle : String) : Bool :=
  containsSubstrAux needle.data hay.data

/-! ### Application state (`App`)

The `env_*` fields model the external world: parsed contents of the
discovery directories, and whether writing the config file would
succeed.  They are read, never written, by the embedded handlers. -/

/-- Application state (`App`).  `section` is a Lean keyword, hence
`section'`. -/
structure App where
  section' : Section
  tab : Section
  view : View
  input_mode : InputMode
  should_quit : Bool
  status_message : Option String
  scroll_offset : Nat
  config : KarlConfig
  config_path : String
  dirty : Bool
  models : FilteredList ModelItem
  model_search : TextInput
  stacks_list : FilteredList StackItem
  stack_search : TextInput
  skills : FilteredList SkillInfo
  skill_search : TextInput
  tools : FilteredList ToolItem
  tool_search : TextInput
  tool_form : Option ToolForm
  hooks : FilteredList HookInfo
  hook_search : TextInput
  confirm_dialog : Option ConfirmDialog
  pending_action : Option PendingAction
  model_form : Option ModelForm
  stack_form : Option StackForm
  cli_status : CliStatus
  cli_info_pending : Bool
  needs_login_flow : Bool
  init_wizard : Option InitWizard
  env_file_stacks : List (String × StackConfig × String)
  env_skills : List SkillInfo
  env_hooks : List HookInfo
  env_save_ok : Bool
  env_save_err : String

namespace App

/-- `poll_cli_info` outcome on receiving a status from the channel. -/
def poll_cli_info_recv (app : App) (status : CliStatus) : App :=
  if app.cli_info_pending then
    { app with cli_status := status, cli_info_pending := false }
  else app

/-- `refresh_cli_info`: restart the background fetch. -/
def refresh_cli_info (app : App) : App :=
  { app with cli_status := CliStatus.Loading, cli_info_pending := true }

/-- `request_login`. -/
def request_login (app : App) : App :=
  { app with needs_login_flow := true }

def refresh_models (app : App) : App :=
  let items : List ModelItem := app.config.models.map (fun kv => ⟨kv.1, kv.2⟩)
  { app with models := FilteredList.new items }

def refresh_stacks (app : App) : App :=
  let items : List StackItem :=
    (discover_stacks app.config app.env_file_stacks).map
      (fun nsp => ⟨nsp.1, nsp.2.1, nsp.2.2⟩)
  { app with stacks_list := FilteredList.new items }

def refresh_skills (app : App) : App :=
  { app with skills := FilteredList.new (discover_skills app.env_skills) }

def refresh_tools (app : App) : App :=
  let builtins := ["bash", "read", "write", "edit"]
  let builtinItems : List ToolItem := builtins.map
    (fun name => ⟨name, app.config.tools.enabled.contains name, true⟩)
  let customItems : List ToolItem := app.config.tools.custom.map
    (fun path => ⟨path, true, false⟩)
  { app with tools := FilteredList.new (builtinItems ++ customItems) }

def refresh_hooks (app : App) : App :=
  { app with hooks := FilteredList.new (discover_hooks app.env_hooks) }

/-- `refresh_all`. -/
def refresh_all (app : App) : App :=
  ((((app.refresh_models).refresh_stacks).refresh_skills).refresh_tools).refresh_hooks

/-- `save_config` (the method): persist via the external filesystem,
whose outcome the environment provides. -/
def save_config (app : App) : App :=
  if app.env_save_ok then
    { app with dirty := false, status_message := some "Config saved" }
  else
    { app with status_message := some ("Save failed: " ++ app.env_save_err) }

def move_down (app : App) : App :=
  match app.section' with
  | Section.Models => { app with models := app.models.next }
  | Section.Stacks => { app with stacks_list := app.stacks_list.next }
  | Section.Skills => { app with skills := app.skills.next }
  | Section.Tools => { app with tools := app.tools.next }
  | Section.Hooks => { app with hooks := app.hooks.next }
  | Section.Settings => app

def move_up (app : App) : App :=
  match app.section' with
  | Section.Models => { app with models := app.models.previous }
  | Section.Stacks => { app with stacks_list := app.stacks_list.previous }
  | Section.Skills => { app with skills := app.skills.previous }
  | Section.Tools => { app with tools := app.tools.previous }
  | Section.Hooks => { app with hooks := app.hooks.previous }
  | Section.Settings => app

def apply_search (app : App) : App :=
  match app.section' with
  | Section.Models =>
      let query := app.model_search.valueStr |> lowerStr
      let filtered := app.models.apply_filter
        (fun item => containsSubstr (lowerStr item.alias') query)
      { app with models := filtered }
  | Section.Stacks =>
      let query := app.stack_search.valueStr |> lowerStr
      let filtered := app.stacks_list.apply_filter
        (fun item => containsSubstr (lowerStr item.name) query)
      { app with stacks_list := filtered }
  | Section.Skills =>
      let query := app.skill_search.valueStr |> lowerStr
      let filtered := app.skills.apply_filter
        (fun item => containsSubstr (lowerStr item.name) query ||
                     containsSubstr (lowerStr item.description) query)
      { app with skills := filtered }
  | Section.Tools =>
      let query := app.tool_search.valueStr |> lowerStr
      let filtered := app.tools.apply_filter
        (fun item => containsSubstr (lowerStr item.name) query)
      { app with tools := filtered }
  | Section.Hooks =>
      let query := app.hook_search.valueStr |> lowerStr
      let filtered := app.hooks.apply_filter
        (fun item => containsSubstr (lowerStr item.name) query)
      { app with hooks := filtered }
  | Section.Settings => app

def clear_search (app : App) : App :=
  match app.section' with
  | Section.Models =>
      { app with model_search := app.model_search.clear,
                 models := app.models.clear_filter }
  | Section.Stacks =>
      { app with stack_search := app.stack_search.clear,
                 stacks_list := app.stacks_list.clear_filter }
  | Section.Skills =>
      { app with skill_search := app.skill_search.clear,
                 skills := app.skills.clear_filter }
  | Section.Tools =>
      { app with tool_search := app.tool_search.clear,
                 tools := app.tools.clear_filter }
  | Section.Hooks =>
      { app with hook_search := app.hook_search.clear,
                 hooks := app.hooks.clear_filter }
  | Section.Settings => app

def toggle_selected_tool (app : App) : App :=
  match app.tools.selected_index with
  | none => app
  | some idx =>
      match app.tools.items[idx]? with
      | none => app
      | some tool =>
          if tool.is_builtin then
            let toggled := { tool with enabled := !tool.enabled }
            let enabled' :=
              if toggled.enabled then
                (if !app.config.tools.enabled.contains tool.name then
                   app.config.tools.enabled ++ [tool.name]
                 else app.config.tools.enabled)
              else app.config.tools.enabled.filter (fun t => !(t == tool.name))
            { app with
                tools := { app.tools with items := app.tools.items.set idx toggled }
                config := { app.config with
                            tools := { app.config.tools with enabled := enabled' } }
                dirty := true }
          else app

def confirm_delete (app : App) : App :=
  match app.section' with
  | Section.Models =>
      match app.models.selected with
      | some model =>
          { app with
              confirm_dialog := some (ConfirmDialog.new "Delete Model"
                ("Delete model '" ++ model.alias' ++ "'?"))
              pending_action := some (PendingAction.DeleteModel model.alias') }
      | none => app
  | Section.Stacks =>
      match app.stacks_list.selected with
      | some stack =>
          { app with
              confirm_dialog := some (ConfirmDialog.new "Delete Stack"
                ("Delete stack '" ++ stack.name ++ "'?"))
              pending_action := some (PendingAction.DeleteStack stack.name) }
      | none => app
  | Section.Tools =>
      match app.tools.selected with
      | some tool =>
          if !tool.is_builtin then
            { app with
                confirm_dialog := some (ConfirmDialog.new "Remove Tool"
                  ("Remove custom tool '" ++ tool.name ++ "'?"))
                pending_action := some (PendingAction.DeleteTool tool.name) }
          else app
      | none => app
  | _ => app

def execute_action (app : App) (action : PendingAction) : App :=
  match action with
  | PendingAction.DeleteModel a =>
      let app1 := { app with
        config := { app.config with models := removeS app.config.models a }
        dirty := true }
      let app2 := app1.refresh_models
      { app2 with status_message := some ("Deleted model '" ++ a ++ "'") }
  | PendingAction.DeleteStack n =>
      let app1 := { app with
        config := { app.config with stacks' := removeS app.config.stacks' n }
        dirty := true }
      let app2 := app1.refresh_stacks
      { app2 with status_message := some ("Deleted stack '" ++ n ++ "'") }
  | PendingAction.DeleteTool p =>
      let custom' := app.config.tools.custom.filter (fun t => !(t == p))
      let app1 := { app with
        config := { app.config with
          tools := { app.config.tools with custom := custom' } }
        dirty := true }
      let app2 := app1.refresh_tools
      { app2 with status_message := some ("Removed tool '" ++ p ++ "'") }
  | PendingAction.Quit => { app with should_quit := true }

/-- `get_provider_names`: the keys of the provider map. -/
def get_provider_names (app : App) : List String :=
  keysS app.config.providers

def start_create (app : App) : App :=
  match app.section' with
  | Section.Models =>
      { app with model_form := some (ModelForm.new_create app.get_provider_names)
                 view := View.Create
                 input_mode := InputMode.Editing }
  | Section.Stacks =>
      { app with stack_form := some StackForm.new_create
                 view := View.Create
                 input_mode := InputMode.Editing }
  | Section.Tools =>
      { app with tool_form := some ToolForm.new
                 view := View.Create
                 input_mode := InputMode.Editing }
  | _ => app

def start_edit (app : App) : App :=
  match app.section' with
  | Section.Models =>
      match app.models.selected with
      | some model =>
          let is_default := app.config.default_model == model.alias'
          { app with
              model_form := some (ModelForm.new_edit model.alias' model.config
                is_default app.get_provider_names)
              view := View.Edit
              input_mode := InputMode.Editing }
      | none => app
  | Section.Stacks =>
      match app.stacks_list.selected with
      | some stack =>
          { app with
              stack_form := some (StackForm.new_edit stack.name stack.config)
              view := View.Edit
              input_mode := InputMode.Editing }
      | none => app
  | _ => app

/-- `save_model_form`: take the form, validate, abort with the joined
errors (restoring the form) or commit. -/
def save_model_form (app : App) : App :=
  match app.model_form with
  | none => app
  | some form =>
      let app := { app with model_form := none }
      let errors := form.validate
      if !errors.isEmpty then
        { app with status_message := some (joinWith ", " errors)
                   model_form := some form }
      else
        let alias_ := trimStr form.alias'.valueStr
        let provider := (form.selected_provider).getD ""
        let config : ModelConfig :=
          { provider := provider
            model := (form.model.selected_value).getD ""
            extra := [] }
        let models1 :=
          match form.original_alias with
          | some original =>
              if original ≠ alias_ then removeS app.config.models original
              else app.config.models
          | none => app.config.models
        let models2 := insertS models1 alias_ config
        let default' :=
          if form.set_as_default.value then alias_ else app.config.default_model
        let app := { app with
          config := { app.config with models := models2, default_model := default' }
          dirty := true }
        let app := app.refresh_models
        { app with
            view := View.List
            input_mode := InputMode.Normal
            status_message := some
              ((if form.mode = FormMode.Create then "Created" else "Updated") ++
               " model '" ++ alias_ ++ "'") }

/-- `save_stack_form`. -/
def save_stack_form (app : App) : App :=
  match app.stack_form with
  | none => app
  | some form =>
      let app := { app with stack_form := none }
      let errors := form.validate
      if !errors.isEmpty then
        { app with status_message := some (joinWith ", " errors)
                   stack_form := some form }
      else
        let name := trimStr form.name.valueStr
        let config : StackConfig :=
          { name := some name
            extends' :=
              if strIsEmpty (trimStr form.extends'.valueStr) then none
              else some (trimStr form.extends'.valueStr)
            model :=
              if strIsEmpty (trimStr form.model.valueStr) then none
              else some (trimStr form.model.valueStr)
            temperature := parse_f64 (trimStr form.temperature.valueStr)
            timeout := parse_u64 (trimStr form.timeout.valueStr)
            max_tokens := parse_u32 (trimStr form.max_tokens.valueStr)
            skill :=
              if strIsEmpty (trimStr form.skill.valueStr) then none
              else some (trimStr form.skill.valueStr)
            context :=
              let text := joinWith "\n" form.context.lines
              if strIsEmpty (trimStr text) then none else some text
            context_file :=
              if strIsEmpty (trimStr form.context_file.valueStr) then none
              else some (trimStr form.context_file.valueStr)
            unrestricted := if form.unrestricted.value then some true else none }
        let stacks1 :=
          match form.original_name with
          | some original =>
              if original ≠ name then removeS app.config.stacks' original
              else app.config.stacks'
          | none => app.config.stacks'
        let stacks2 := insertS stacks1 name config
        let app := { app with
          config := { app.config with stacks' := stacks2 }
          dirty := true }
        let app := app.refresh_stacks
        { app with
            view := View.List
            input_mode := InputMode.Normal
            status_message := some
              ((if form.mode = FormMode.Create then "Created" else "Updated") ++
               " stack '" ++ name ++ "'") }

/-- `save_tool_form`. -/
def save_tool_form (app : App) : App :=
  match app.tool_form with
  | none => app
  | some form =>
      let app := { app with tool_form := none }
      let errors := form.validate
      if !errors.isEmpty then
        { app with status_message := some (joinWith ", " errors)
                   tool_form := some form }
      else
        let path := trimStr form.path.valueStr
        if app.config.tools.custom.contains path then
          { app with status_message := some "Tool already exists"
                     tool_form := some form }
        else
          let app := { app with
            config := { app.config with
              tools := { app.config.tools with
                custom := app.config.tools.custom ++ [path] } }
            dirty := true }
          let app := app.refresh_tools
          { app with
              view := View.List
              input_mode := InputMode.Normal
              status_message := some ("Added tool '" ++ path ++ "'") }

/-- `cancel_form`. -/
def cancel_form (app : App) : App :=
  { app with model_form := none
             stack_form := none
             tool_form := none
             view := View.List
             input_mode := InputMode.Normal
             status_message := some "Cancelled" }

/-- `handle_model_form_key`. -/
def handle_model_form_key (app : App) (key : KeyEvent) : App :=
  if key.mods.ctrl = true ∧ key.code = KeyCode.char 's' then app.save_model_form
  else if key.code = KeyCode.esc then app.cancel_form
  else
    match app.model_form with
    | none => app
    | some form =>
        match key.code with
        | KeyCode.tab => { app with model_form := some form.next_field }
        | KeyCode.backTab => { app with model_form := some form.prev_field }
        | _ =>
            let form' :=
              if form.focused_field = 0 then
                { form with alias' := (form.alias'.handle_key key).1 }
              else if form.focused_field = 1 then
                let (sel, changed) := form.provider.handle_key key
                let f2 := { form with provider := sel }
                if changed then f2.update_model_options else f2
              else if form.focused_field = 2 then
                { form with model := (form.model.handle_key key).1 }
              else if form.focused_field = 3 then
                { form with set_as_default := (form.set_as_default.handle_key key).1 }
              else form
            { app with model_form := some form' }

/-- `handle_stack_form_key`. -/
def handle_stack_form_key (app : App) (key : KeyEvent) : App :=
  if key.mods.ctrl = true ∧ key.code = KeyCode.char 's' then app.save_stack_form
  else if key.code = KeyCode.esc then app.cancel_form
  else
    match app.stack_form with
    | none => app
    | some form =>
        match key.code with
        | KeyCode.tab => { app with stack_form := some form.next_field }
        | KeyCode.backTab => { app with stack_form := some form.prev_field }
        | _ =>
            let form' :=
              if form.focused_field = 0 then
                { form with name := (form.name.handle_key key).1 }
              else if form.focused_field = 1 then
                { form with extends' := (form.extends'.handle_key key).1 }
              else if form.focused_field = 2 then
                { form with model := (form.model.handle_key key).1 }
              else if form.focused_field = 3 then
                { form with temperature := (form.temperature.handle_key key).1 }
              else if form.focused_field = 4 then
                { form with timeout := (form.timeout.handle_key key).1 }
              else if form.focused_field = 5 then
                { form with max_tokens := (form.max_tokens.handle_key key).1 }
              else if form.focused_field = 6 then
                { form with skill := (form.skill.handle_key key).1 }
              else if form.focused_field = 7 then
                { form with context := form.context.input key }
              else if form.focused_field = 8 then
                { form with context_file := (form.context_file.handle_key key).1 }
              else if form.focused_field = 9 then
                { form with unrestricted := (form.unrestricted.handle_key key).1 }
              else form
            { app with stack_form := some form' }

/-- `handle_tool_form_key`. -/
def handle_tool_form_key (app : App) (key : KeyEvent) : App :=
  if key.mods.ctrl = true ∧ key.code = KeyCode.char 's' then app.save_tool_form
  else if key.code = KeyCode.esc then app.cancel_form
  else
    match app.tool_form with
    | none => app
    | some form =>
        { app with tool_form := some { form with path := (form.path.handle_key key).1 } }

/-- `handle_search_key`. -/
def handle_search_key (app : App) (key : KeyEvent) : App :=
  match key.code with
  | KeyCode.esc => ({ app with input_mode := InputMode.Normal }).clear_search
  | KeyCode.enter => { app with input_mode := InputMode.Normal }
  | _ =>
      match app.section' with
      | Section.Settings => app
      | Section.Models =>
          let (ti, changed) := app.model_search.handle_key key
          let app := { app with model_search := ti }
          if changed then app.apply_search else app
      | Section.Stacks =>
          let (ti, changed) := app.stack_search.handle_key key
          let app := { app with stack_search := ti }
          if changed then app.apply_search else app
      | Section.Skills =>
          let (ti, changed) := app.skill_search.handle_key key
          let app := { app with skill_search := ti }
          if changed then app.apply_search else app
      | Section.Tools =>
          let (ti, changed) := app.tool_search.handle_key key
          let app := { app with tool_search := ti }
          if changed then app.apply_search else app
      | Section.Hooks =>
          let (ti, changed) := app.hook_search.handle_key key
          let app := { app with hook_search := ti }
          if changed then app.apply_search else app

/-- `handle_confirm_key`. -/
def handle_confirm_key (app : App) (key : KeyEvent) : App :=
  match app.confirm_dialog with
  | none => app
  | some dialog =>
      match key.code with
      | KeyCode.left => { app with confirm_dialog := some dialog.select_cancel }
      | KeyCode.char 'h' => { app with confirm_dialog := some dialog.select_cancel }
      | KeyCode.right => { app with confirm_dialog := some dialog.select_confirm }
      | KeyCode.char 'l' => { app with confirm_dialog := some dialog.select_confirm }
      | KeyCode.tab => { app with confirm_dialog := some dialog.toggle }
      | KeyCode.enter =>
          let confirmed := dialog.is_confirmed
          let action := app.pending_action
          let app := { app with pending_action := none, confirm_dialog := none }
          if confirmed then
            match action with
            | some a => app.execute_action a
            | none => app
          else app
      | KeyCode.esc => { app with confirm_dialog := none, pending_action := none }
      | _ => app

/-- `handle_list_key`. -/
def handle_list_key (app : App) (key : KeyEvent) : App :=
  match key.code with
  | KeyCode.down => app.move_down
  | KeyCode.char 'j' => app.move_down
  | KeyCode.up => app.move_up
  | KeyCode.char 'k' => app.move_up
  | KeyCode.enter => { app with view := View.Detail }
  | KeyCode.char 'l' => { app with view := View.Detail }
  | KeyCode.right => { app with view := View.Detail }
  | KeyCode.char '/' => { app with input_mode := InputMode.Search }
  | KeyCode.char 'r' =>
      { (app.refresh_all).refresh_cli_info with status_message := some "Refreshed" }
  | KeyCode.char 'L' =>
      if app.section' = Section.Settings then app.request_login else app
  | KeyCode.char ' ' =>
      if app.section' = Section.Tools then app.toggle_selected_tool else app
  | KeyCode.char 'n' => app.start_create
  | KeyCode.char 'e' => app.start_edit
  | KeyCode.char 'd' => app.confirm_delete
  | _ => app

/-- `handle_detail_key`. -/
def handle_detail_key (app : App) (key : KeyEvent) : App :=
  match key.code with
  | KeyCode.esc => { app with view := View.List }
  | KeyCode.char 'h' => { app with view := View.List }
  | KeyCode.left => { app with view := View.List }
  | KeyCode.char 'e' => app.start_edit
  | _ => app

/-- `complete_wizard`: take the wizard, synthesize a provider and a
model entry, set the default model, save, and quit. -/
def complete_wizard (app : App) : App :=
  match app.init_wizard with
  | none => app
  | some wizard =>
      let app := { app with init_wizard := none }
      let provider := wizard.selected_provider
      let model_alias := trimStr wizard.model_alias.valueStr
      let model_id := (wizard.selected_model).getD
        (((provider.default_models[0]?).map Prod.snd).getD "")
      let provider_config0 := { ProviderConfig.default with
        provider_type := provider.provider_type }
      let provider_config :=
        if provider.auth_type == "oauth" then
          { provider_config0 with auth_type := some "oauth" }
        else
          let with_key := { provider_config0 with
            api_key := some (trimStr wizard.api_key.valueStr) }
          if provider.key == "openrouter" then
            { with_key with base_url := some "https://openrouter.ai/api/v1" }
          else with_key
      let model_config : ModelConfig :=
        { provider := provider.key, model := model_id, extra := [] }
      let app := { app with config := { app.config with
        providers := insertS app.config.providers provider.key provider_config
        models := insertS app.config.models model_alias model_config
        default_model := model_alias } }
      let doneMsg := "Setup complete! Default model: " ++ model_alias
      let failMsg := "Setup failed: " ++ app.env_save_err
      let app :=
        if app.env_save_ok then { app with status_message := some doneMsg }
        else { app with status_message := some failMsg }
      { app with should_quit := true }

/-- `wizard_oauth_complete` (called from the main loop). -/
def wizard_oauth_complete (app : App) (success : Bool) : App :=
  match app.init_wizard with
  | none => app
  | some wizard =>
      if success then
        { app with init_wizard := some { wizard with
            oauth_status := OAuthStatus.Success, step := InitStep.CreateModel } }
      else
        { app with init_wizard := some { wizard with
            oauth_status := OAuthStatus.Failed "OAuth authentication failed" } }

/-- `handle_wizard_key`: Escape always quits; otherwise dispatch on the
wizard step. -/
def handle_wizard_key (app : App) (key : KeyEvent) : App :=
  if key.code = KeyCode.esc then { app with should_quit := true }
  else
    match app.init_wizard with
    | none => app
    | some wizard =>
        match wizard.step with
        | InitStep.Welcome =>
            if key.code = KeyCode.enter then
              { app with init_wizard := some { wizard with step := InitStep.SelectProvider } }
            else app
        | InitStep.SelectProvider =>
            match key.code with
            | KeyCode.up => { app with init_wizard := some wizard.prev_provider }
            | KeyCode.char 'k' => { app with init_wizard := some wizard.prev_provider }
            | KeyCode.down => { app with init_wizard := some wizard.next_provider }
            | KeyCode.char 'j' => { app with init_wizard := some wizard.next_provider }
            | KeyCode.enter =>
                let provider := wizard.selected_provider
                if provider.auth_type == "oauth" then
                  { app with init_wizard := some { wizard with
                      step := InitStep.AuthenticateOAuth } }
                else
                  { app with init_wizard := some { wizard with
                      step := InitStep.AuthenticateApiKey } }
            | _ => app
        | InitStep.AuthenticateOAuth =>
            match key.code with
            | KeyCode.enter =>
                { app with needs_login_flow := true
                           init_wizard := some { wizard with
                             oauth_status := OAuthStatus.InProgress } }
            | KeyCode.char 's' =>
                { app with init_wizard := some { wizard with step := InitStep.CreateModel } }
            | KeyCode.char 'S' =>
                { app with init_wizard := some { wizard with step := InitStep.CreateModel } }
            | KeyCode.backspace =>
                { app with init_wizard := some { wizard with
                    step := InitStep.SelectProvider
                    oauth_status := OAuthStatus.NotStarted } }
            | _ => app
        | InitStep.AuthenticateApiKey =>
            match key.code with
            | KeyCode.enter =>
                if !strIsEmpty (trimStr wizard.api_key.valueStr) then
                  { app with init_wizard := some { wizard with step := InitStep.CreateModel } }
                else
                  { app with init_wizard := some { wizard with
                      error_message := some "API key is required" } }
            | KeyCode.backspace =>
                if strIsEmpty wizard.api_key.valueStr then
                  { app with init_wizard := some { wizard with
                      step := InitStep.SelectProvider } }
                else
                  { app with init_wizard := some { wizard with
                      api_key := (wizard.api_key.handle_key key).1
                      error_message := none } }
            | _ =>
                { app with init_wizard := some { wizard with
                    api_key := (wizard.api_key.handle_key key).1
                    error_message := none } }
        | InitStep.CreateModel =>
            match key.code with
            | KeyCode.tab =>
                { app with init_wizard := some { wizard with
                    model_focused_field := 1 - wizard.model_focused_field } }
            | KeyCode.enter =>
                if !strIsEmpty (trimStr wizard.model_alias.valueStr) then
                  { app with init_wizard := some { wizard with step := InitStep.Confirm } }
                else
                  { app with init_wizard := some { wizard with
                      error_message := some "Model alias is required" } }
            | _ =>
                if wizard.model_focused_field = 0 then
                  { app with init_wizard := some { wizard with
                      model_alias := (wizard.model_alias.handle_key key).1
                      error_message := none } }
                else
                  match key.code with
                  | KeyCode.up =>
                      { app with init_wizard := some { wizard with
                          model_selector := wizard.model_selector.previous } }
                  | KeyCode.char 'k' =>
                      { app with init_wizard := some { wizard with
                          model_selector := wizard.model_selector.previous } }
                  | KeyCode.down =>
                      { app with init_wizard := some { wizard with
                          model_selector := wizard.model_selector.next } }
                  | KeyCode.char 'j' =>
                      { app with init_wizard := some { wizard with
                          model_selector := wizard.model_selector.next } }
                  | _ => app
        | InitStep.Confirm =>
            match key.code with
            | KeyCode.enter => app.complete_wizard
            | KeyCode.char 'y' => app.complete_wizard
            | KeyCode.char 'Y' => app.complete_wizard
            | KeyCode.backspace =>
                { app with init_wizard := some { wizard with step := InitStep.CreateModel } }
            | KeyCode.char 'n' =>
                { app with init_wizard := some { wizard with step := InitStep.CreateModel } }
            | KeyCode.char 'N' =>
                { app with init_wizard := some { wizard with step := InitStep.CreateModel } }
            | _ => app

/-- The tail of `handle_key` reached only in the Normal context: global
keys (quit, force-quit, save), section switching, then the view-specific
list and detail handlers. -/
def handle_normal_key (app : App) (key : KeyEvent) : App :=
  if key.code = KeyCode.char 'q' then
    (if app.dirty then
      { app with
          confirm_dialog := some (ConfirmDialog.new "Unsaved Changes"
            "You have unsaved changes. Quit anyway?")
          pending_action := some PendingAction.Quit }
    else { app with should_quit := true })
  else if key.code = KeyCode.char 'c' ∧ key.mods.ctrl = true then
    { app with should_quit := true }
  else if key.code = KeyCode.char 's' ∧ key.mods.ctrl = true then
    app.save_config
  else if key.code = KeyCode.tab then
    { app with section' := app.section'.next, tab := app.section'.next, view := View.List }
  else if key.code = KeyCode.backTab then
    { app with section' := app.section'.prev, tab := app.section'.prev, view := View.List }
  else
    match key.code with
    | KeyCode.char c =>
        if c.isDigit then
          match Section.from_number (c.toNat - 48) with
          | some s => { app with section' := s, tab := s, view := View.List }
          | none => app
        else
          match app.view with
          | View.List => app.handle_list_key key
          | View.Detail => app.handle_detail_key key
          | _ => app
    | _ =>
        match app.view with
        | View.List => app.handle_list_key key
        | View.Detail => app.handle_detail_key key
        | _ => app

/-- `handle_key`: the modal dispatch chain.  Each present context takes
the event exclusively, in the fixed order wizard, confirm dialog, model
form, stack form, tool form, search, normal. -/
def handle_key (app : App) (key : KeyEvent) : App :=
  if app.init_wizard.isSome then app.handle_wizard_key key
  else if app.confirm_dialog.isSome then app.handle_confirm_key key
  else if app.model_form.isSome then app.handle_model_form_key key
  else if app.stack_form.isSome then app.handle_stack_form_key key
  else if app.tool_form.isSome then app.handle_tool_form_key key
  else if app.input_mode = InputMode.Search then app.handle_search_key key
  else app.handle_normal_key key

/-- `is_wizard_mode`. -/
def is_wizard_mode (app : App) : Bool :=
  app.init_wizard.isSome

end App

/-! ### Concrete sample states

Closed sample values used to evaluate the embedded operations on
concrete inputs. -/

/-- A plain application state: Settings section, list view, normal
input mode, default configuration, no modal context, empty environment,
writable config file. -/
def baseApp : App :=
  { section' := Section.Settings
    tab := Section.Settings
    view := View.List
    input_mode := InputMode.Normal
    should_quit := false
    status_message := none
    scroll_offset := 0
    config := KarlConfig.default
    config_path := "~/.config/karl/karl.json"
    dirty := false
    models := FilteredList.new []
    model_search := TextInput.new.with_placeholder "Search models..."
    stacks_list := FilteredList.new []
    stack_search := TextInput.new.with_placeholder "Search stacks..."
    skills := FilteredList.new []
    skill_search := TextInput.new.with_placeholder "Search skills..."
    tools := FilteredList.new []
    tool_search := TextInput.new.with_placeholder "Search tools..."
    tool_form := none
    hooks := FilteredList.new []
    hook_search := TextInput.new.with_placeholder "Search hooks..."
    confirm_dialog := none
    pending_action := none
    model_form := none
    stack_form := none
    cli_status := CliStatus.Loading
    cli_info_pending := false
    needs_login_flow := false
    init_wizard := none
    env_file_stacks := []
    env_skills := []
    env_hooks := []
    env_save_ok := true
    env_save_err := "" }

/-- A wizard-mode state stopped at the CreateModel step. -/
def wizardCreateModelApp : App :=
  { baseApp with init_wizard := some { InitWizard.new with step := InitStep.CreateModel } }

/-- Sample global configuration: defines model "a" with provider
"anthropic". -/
def gConf : KarlConfig :=
  { KarlConfig.default with
      default_model := "a"
      models := [("a", ⟨"anthropic", "g-model", []⟩)] }

/-- Sample project configuration: redefines model "a" with a different
provider and adds model "b". -/
def pConf : KarlConfig :=
  { KarlConfig.default with
      default_model := "b"
      models := [("a", ⟨"openai", "p-model", []⟩), ("b", ⟨"openai", "b-model", []⟩)] }

/-- An invalid model form: no providers configured, empty alias. -/
def invalidModelForm : ModelForm := ModelForm.new_create []

/-- A state with all three forms open and invalid. -/
def invalidFormsApp : App :=
  { baseApp with
      model_form := some invalidModelForm
      stack_form := some StackForm.new_create
      tool_form := some ToolForm.new }

/-- A valid create-mode model form: alias "x", provider "anthropic",
model id "claude-x", set-as-default on. -/
def xModelForm : ModelForm :=
  { mode := FormMode.Create
    original_alias := none
    focused_field := 0
    alias' := TextInput.new.with_value "x"
    provider := Selector.new ["anthropic"]
    model := Selector.new ["claude-x"]
    set_as_default := (Toggle.new "Set as default model").with_value true }

/-- A state about to commit `xModelForm`. -/
def xFormApp : App :=
  { baseApp with
      config := { KarlConfig.default with
                    providers := [("anthropic", ProviderConfig.default)] }
      model_form := some xModelForm }

/-- A state with a confirm dialog open. -/
def dialogApp : App :=
  { baseApp with
      confirm_dialog := some (ConfirmDialog.new "Delete Model" "Delete model?")
      pending_action := some (PendingAction.DeleteModel "m") }

/-- A state with only the model form open. -/
def modelFormApp : App := { baseApp with model_form := some invalidModelForm }

/-- A state with only the stack form open. -/
def stackFormApp : App := { baseApp with stack_form := some StackForm.new_create }

/-- A state with only the tool form open. -/
def toolFormApp : App := { baseApp with tool_form := some ToolForm.new }

/-- A state in search input mode. -/
def searchApp : App := { baseApp with input_mode := InputMode.Search }

/-- A navigation operation on a filtered list (`next()` or
`previous()`). -/
inductive NavOp where
  | next
  | previous
  deriving DecidableEq, Repr

/-- Apply one navigation operation. -/
def navStep {α : Type} (l : FilteredList α) : NavOp → FilteredList α
  | NavOp.next => l.next
  | NavOp.previous => l.previous

/-- Apply a finite sequence of navigation operations. -/
def applyNav {α : Type} (l : FilteredList α) (ops : List NavOp) : FilteredList α :=
  ops.foldl navStep l

/-- The empty filtered list over Nat items. -/
def emptyFL : FilteredList Nat := FilteredList.new []

/-- Five-item list for the filter scenario. -/
def c2List : FilteredList Nat := FilteredList.new [0, 1, 2, 3, 4]

/-- Predicate matching the items at positions 1 and 3. -/
def c2Pred : Nat → Bool := fun x => x == 1 || x == 3

/-! ## Theorems -/

theorem lookupS_insertS_self {β : Type} (m : List (String × β)) (k : String) (v : β) :
    lookupS (insertS m k v) k = some v := by
  induction m with
  | nil => simp [insertS, lookupS]
  | cons hd tl ih =>
      by_cases h : hd.1 = k
      · simp [insertS, h, lookupS]
      · simp [insertS, h, lookupS, ih]

theorem lookupS_insertS_ne {β : Type} (m : List (String × β)) (k k' : String) (v : β)
    (h : k ≠ k') : lookupS (insertS m k v) k' = lookupS m k' := by
  induction m with
  | nil => simp [insertS, lookupS, h]
  | cons hd tl ih =>
      by_cases hh : hd.1 = k
      · subst hh
        simp [insertS, lookupS, h, ih]
      · simp [insertS, hh, lookupS, ih]

theorem insertS_of_not_mem {β : Type} (m : List (String × β)) (k : String) (v : β)
    (h : k ∉ keysS m) : insertS m k v = m ++ [(k, v)] := by
  induction m with
  | nil => simp [insertS]
  | cons hd tl ih =>
      simp only [keysS, List.map_cons, List.mem_cons] at h
      push_neg at h
      simp [insertS, Ne.symm h.1, ih (by simpa [keysS] using h.2)]

theorem keysS_insertS {β : Type} (m : List (String × β)) (k : String) (v : β) :
    keysS (insertS m k v) = if k ∈ keysS m then keysS m else keysS m ++ [k] := by
  induction m with
  | nil => simp [insertS, keysS]
  | cons hd tl ih =>
      by_cases h : hd.1 = k
      · simp [insertS, h, keysS]
      · simp only [insertS, if_neg h, keysS, List.map_cons] at *
        rw [ih]
        by_cases hk : k ∈ keysS tl
        · simp [keysS] at hk
          simp [hk, Ne.symm h]
        · simp [keysS] at hk
          simp [hk, Ne.symm h]

theorem nodup_keysS_insertS {β : Type} (m : List (String × β)) (k : String) (v : β)
    (h : (keysS m).Nodup) : (keysS (insertS m k v)).Nodup := by
  rw [keysS_insertS]
  by_cases hk : k ∈ keysS m
  · simpa [hk]
  · simpa [hk, List.nodup_append] using h

theorem mem_insertS {β : Type} (m : List (String × β)) (k : String) (v : β)
    (kv : String × β) (h : kv ∈ insertS m k v) : kv ∈ m ∨ kv = (k, v) := by
  induction m with
  | nil => simpa [insertS] using h
  | cons hd tl ih =>
      by_cases hh : hd.1 = k
      · simp only [insertS, if_pos hh, List.mem_cons] at h
        rcases h with h | h
        · right; exact h
        · left; exact List.mem_cons_of_mem _ h
      · simp only [insertS, if_neg hh, List.mem_cons] at h
        rcases h with h | h
        · left; simp [h]
        · rcases ih h with h' | h'
          · left; exact List.mem_cons_of_mem _ h'
          · right; exact h'

theorem lookupS_eq_none_of_not_mem {β : Type} (m : List (String × β)) (k : String)
    (h : k ∉ keysS m) : lookupS m k = none := by
  induction m with
  | nil => simp [lookupS]
  | cons hd tl ih =>
      simp only [keysS, List.map_cons, List.mem_cons] at h
      push_neg at h
      simp [lookupS, Ne.symm h.1, ih (by simpa [keysS] using h.2)]

theorem lookupS_mergeS {β : Type} (entries : List (String × β)) :
    ∀ (base : List (String × β)) (k : String), (keysS entries).Nodup →
    lookupS (mergeS base entries) k = (lookupS entries k).or (lookupS base k) := by
  induction entries with
  | nil => intro base k _; simp [mergeS, lookupS, Option.or]
  | cons hd tl ih =>
      intro base k hnd
      simp only [keysS, List.map_cons, List.nodup_cons] at hnd
      have step : mergeS base (hd :: tl) = mergeS (insertS base hd.1 hd.2) tl := by
        simp [mergeS]
      rw [step, ih _ k hnd.2]
      by_cases hk : hd.1 = k
      · subst hk
        have hnone : lookupS tl hd.1 = none :=
          lookupS_eq_none_of_not_mem _ _ (by simpa [keysS] using hnd.1)
        simp [hnone, lookupS, lookupS_insertS_self, Option.or]
      · simp [lookupS, hk, lookupS_insertS_ne _ _ _ _ hk]

theorem mem_mergeS {β : Type} (entries : List (String × β)) :
    ∀ (base : List (String × β)) (kv : String × β),
    kv ∈ mergeS base entries → kv ∈ base ∨ kv ∈ entries := by
  induction entries with
  | nil => intro base kv h; left; simpa [mergeS] using h
  | cons hd tl ih =>
      intro base kv h
      have step : mergeS base (hd :: tl) = mergeS (insertS base hd.1 hd.2) tl := by
        simp [mergeS]
      rw [step] at h
      rcases ih _ kv h with h' | h'
      · rcases mem_insertS _ _ _ _ h' with h'' | h''
        · left; exact h''
        · right; simp [h'']
      · right; exact List.mem_cons_of_mem _ h'

theorem nodup_keysS_mergeS {β : Type} (entries : List (String × β)) :
    ∀ (base : List (String × β)), (keysS base).Nodup →
    (keysS (mergeS base entries)).Nodup := by
  induction entries with
  | nil => intro base h; simpa [mergeS]
  | cons hd tl ih =>
      intro base h
      have step : mergeS base (hd :: tl) = mergeS (insertS base hd.1 hd.2) tl := by
        simp [mergeS]
      rw [step]
      exact ih _ (nodup_keysS_insertS _ _ _ h)


theorem lookupS_removeS_self {β : Type} (m : List (String × β)) (k : String) :
    lookupS (removeS m k) k = none := by
  induction m with
  | nil => simp [removeS, lookupS]
  | cons hd tl ih =>
      by_cases h : hd.1 = k
      · simpa [removeS, h] using ih
      · simpa [removeS, lookupS, h] using ih

/-! ### C10: wizard Escape -/

/-- C10: whenever the init wizard is active, pressing Escape (with any
modifiers) sets `should_quit` and changes nothing else — at every
wizard step, so the CreateModel step's own Escape branch is
unreachable. -/
theorem wizard_escape_always_quits (app : App) (w : InitWizard) (mods : KeyModifiers)
    (h : app.init_wizard = some w) :
    app.handle_key ⟨KeyCode.esc, mods⟩ = { app with should_quit := true } := by
  have hs : app.init_wizard.isSome = true := by simp [h]
  simp [App.handle_key, hs, App.handle_wizard_key]

/-- C10 witness: at the CreateModel step, Escape quits without touching
any other state. -/
theorem wizard_escape_always_quits_witness :
    wizardCreateModelApp.init_wizard =
      some { InitWizard.new with step := InitStep.CreateModel } ∧
    wizardCreateModelApp.handle_key (plainKey KeyCode.esc) =
      { wizardCreateModelApp with should_quit := true } :=
  ⟨rfl, wizard_escape_always_quits wizardCreateModelApp
    { InitWizard.new with step := InitStep.CreateModel } ⟨false⟩ rfl⟩

/-! ### C8: unparsable layers degrade to absent layers -/

/-- C8: a layer that exists but fails to read (`unreadable`) or to
parse (`present j` with undecodable `j`) leaves `load_merged_config`
exactly as if the layer were absent, and the function still returns
`Ok`. -/
theorem unparsable_layer_skipped (g p : LayerFile) (j : Json)
    (hj : decodeKarlConfig j = none) :
    load_merged_config (LayerFile.present j) p = load_merged_config LayerFile.absent p ∧
    load_merged_config g (LayerFile.present j) = load_merged_config g LayerFile.absent ∧
    load_merged_config LayerFile.unreadable p = load_merged_config LayerFile.absent p ∧
    load_merged_config g LayerFile.unreadable = load_merged_config g LayerFile.absent ∧
    load_merged_config_result g p = Except.ok (load_merged_config g p) := by
  refine ⟨?_, ?_, ?_, ?_, rfl⟩
  · simp [load_merged_config, load_config, hj, global_config_path]
  · cases g <;> simp [load_merged_config, load_config, hj, global_config_path]
  · simp [load_merged_config, load_config, global_config_path]
  · cases g <;> simp [load_merged_config, load_config, global_config_path]

/-- C8 witness: a string is not a valid configuration document, and
such a global layer behaves as an absent one. -/
theorem unparsable_layer_skipped_witness :
    decodeKarlConfig (Json.str "oops") = none ∧
    load_merged_config (LayerFile.present (Json.str "oops")) LayerFile.absent =
      load_merged_config LayerFile.absent LayerFile.absent :=
  ⟨rfl, (unparsable_layer_skipped LayerFile.absent LayerFile.absent
    (Json.str "oops") rfl).1⟩

/-! ### C5: defaults with no layers (corrected) -/

/-- C5 counterexample: with no global and no project layer,
`load_merged_config` returns the derived `Default`, whose
`default_model` is the empty string, not "fast". -/
theorem no_layer_default_model_not_fast :
    (load_merged_config LayerFile.absent LayerFile.absent).1.default_model = "" ∧
    (load_merged_config LayerFile.absent LayerFile.absent).1.default_model ≠ "fast" := by
  exact ⟨rfl, by decide⟩

/-- C5 amended: with no layers loaded, the result is exactly the
built-in `Default` configuration: empty `default_model` (the "fast"
fallback is a deserialization default only), empty model and stack
maps, enabled tools bash, read, write, edit, and retry policy 3, 3,
exponential. -/
theorem no_layer_defaults :
    load_merged_config LayerFile.absent LayerFile.absent =
      (KarlConfig.default, "~/.config/karl/karl.json") ∧
    KarlConfig.default.default_model = "" ∧
    KarlConfig.default.models = [] ∧
    KarlConfig.default.stacks' = [] ∧
    KarlConfig.default.tools.enabled = ["bash", "read", "write", "edit"] ∧
    KarlConfig.default.volley.max_concurrent = 3 ∧
    KarlConfig.default.volley.retry_attempts = 3 ∧
    KarlConfig.default.volley.retry_backoff = "exponential" :=
  ⟨rfl, rfl, rfl, rfl, rfl, rfl, rfl, rfl⟩

/-! ### C4: commit is all-or-nothing -/

/-- C4: for each of the three form kinds, a commit on a form whose
validation fails leaves the whole application unchanged except for the
status message, which carries the comma-joined errors: the
configuration, the dirty flag, and the open form (with its field
values) are untouched. -/
theorem invalid_commit_changes_nothing (app : App) :
    (∀ f : ModelForm, app.model_form = some f → f.validate ≠ [] →
        app.save_model_form =
          { app with status_message := some (joinWith ", " f.validate) }) ∧
    (∀ f : StackForm, app.stack_form = some f → f.validate ≠ [] →
        app.save_stack_form =
          { app with status_message := some (joinWith ", " f.validate) }) ∧
    (∀ f : ToolForm, app.tool_form = some f → f.validate ≠ [] →
        app.save_tool_form =
          { app with status_message := some (joinWith ", " f.validate) }) := by
  refine ⟨?_, ?_, ?_⟩ <;> intro f hf hv <;>
    [skip; skip; skip]
  · have he : f.validate.isEmpty = false := by
      simpa [List.isEmpty_iff] using hv
    simp [App.save_model_form, hf, he]
  · have he : f.validate.isEmpty = false := by
      simpa [List.isEmpty_iff] using hv
    simp [App.save_stack_form, hf, he]
  · have he : f.validate.isEmpty = false := by
      simpa [List.isEmpty_iff] using hv
    simp [App.save_tool_form, hf, he]

/-- C4 witness: committing any of the three invalid forms changes only
the status message. -/
theorem invalid_commit_changes_nothing_witness :
    invalidModelForm.validate ≠ [] ∧
    StackForm.new_create.validate ≠ [] ∧
    ToolForm.new.validate ≠ [] ∧
    invalidFormsApp.save_model_form =
      { invalidFormsApp with
          status_message := some (joinWith ", " invalidModelForm.validate) } ∧
    invalidFormsApp.save_stack_form =
      { invalidFormsApp with
          status_message := some (joinWith ", " StackForm.new_create.validate) } ∧
    invalidFormsApp.save_tool_form =
      { invalidFormsApp with
          status_message := some (joinWith ", " ToolForm.new.validate) } := by
  refine ⟨by decide, by decide, by decide, ?_, ?_, ?_⟩
  · exact (invalid_commit_changes_nothing invalidFormsApp).1 invalidModelForm rfl (by decide)
  · exact (invalid_commit_changes_nothing invalidFormsApp).2.1 StackForm.new_create rfl (by decide)
  · exact (invalid_commit_changes_nothing invalidFormsApp).2.2 ToolForm.new rfl (by decide)


/-! ### C6: successful model-form commit -/

/-- C6: a valid model-form commit inserts the entry built from the form
fields under the trimmed alias, removes the original key first when an
edit renamed it, sets the default model exactly when the toggle is on,
and always sets the dirty flag (and discards the form session). -/
theorem valid_model_commit (app : App) (f : ModelForm)
    (h : app.model_form = some f) (hv : f.validate = []) :
    lookupS app.save_model_form.config.models (trimStr f.alias'.valueStr) =
      some ⟨(f.selected_provider).getD "", (f.model.selected_value).getD "", []⟩ ∧
    (∀ o, f.original_alias = some o → o ≠ trimStr f.alias'.valueStr →
        lookupS app.save_model_form.config.models o = none) ∧
    app.save_model_form.dirty = true ∧
    app.save_model_form.model_form = none ∧
    (f.set_as_default.value = true →
        app.save_model_form.config.default_model = trimStr f.alias'.valueStr) ∧
    (f.set_as_default.value = false →
        app.save_model_form.config.default_model = app.config.default_model) := by
  have he : f.validate.isEmpty = true := by simp [hv]
  simp only [App.save_model_form, h, he, Bool.not_true, Bool.false_eq_true,
    if_false, App.refresh_models]
  refine ⟨lookupS_insertS_self _ _ _, ?_, by trivial, by trivial, ?_, ?_⟩
  · intro o ho hne
    rw [ho]
    simp only [ne_eq, hne, not_false_eq_true, if_true]
    rw [lookupS_insertS_ne _ _ _ _ (Ne.symm hne)]
    exact lookupS_removeS_self _ _
  · intro hb; simp [hb]
  · intro hb; simp [hb]

/-- C6 witness: committing the create form with alias "x", provider
"anthropic", model id "claude-x" and the default toggle on yields
`models["x"] = (anthropic, claude-x)`, default model "x", dirty set. -/
theorem valid_model_commit_witness :
    xModelForm.validate = [] ∧
    lookupS xFormApp.save_model_form.config.models "x" =
      some ⟨"anthropic", "claude-x", []⟩ ∧
    xFormApp.save_model_form.config.default_model = "x" ∧
    xFormApp.save_model_form.dirty = true := by
  have h := valid_model_commit xFormApp xModelForm rfl rfl
  refine ⟨rfl, ?_, h.2.2.2.2.1 rfl, h.2.2.1⟩
  have h1 := h.1
  simpa using h1

/-! ### C3: project layer merges over global layer -/

/-- C3: with a valid global layer G and a valid project layer P, the
merged maps satisfy lookup(k) = P(k) orelse G(k) (project entries win,
non-conflicting keys of both survive), the project default model wins
exactly when non-empty, the save target is the project file, and with
no project layer the models are exactly G's. -/
theorem project_layer_merge (gj pj : Json) (G P : KarlConfig)
    (hg : decodeKarlConfig gj = some G) (hp : decodeKarlConfig pj = some P)
    (hm : (keysS P.models).Nodup) (hpr : (keysS P.providers).Nodup)
    (hs : (keysS P.stacks').Nodup) :
    (∀ k, lookupS (load_merged_config (LayerFile.present gj)
            (LayerFile.present pj)).1.models k
        = (lookupS P.models k).or (lookupS G.models k)) ∧
    (∀ k, lookupS (load_merged_config (LayerFile.present gj)
            (LayerFile.present pj)).1.providers k
        = (lookupS P.providers k).or (lookupS G.providers k)) ∧
    (∀ k, lookupS (load_merged_config (LayerFile.present gj)
            (LayerFile.present pj)).1.stacks' k
        = (lookupS P.stacks' k).or (lookupS G.stacks' k)) ∧
    ((load_merged_config (LayerFile.present gj) (LayerFile.present pj)).1.default_model
        = if P.default_model = "" then G.default_model else P.default_model) ∧
    (load_merged_config (LayerFile.present gj) (LayerFile.present pj)).2
        = project_config_path ∧
    (load_merged_config (LayerFile.present gj) LayerFile.absent).1.models = G.models := by
  have hred : load_merged_config (LayerFile.present gj) (LayerFile.present pj) =
      ({ G with models := mergeS G.models P.models
                providers := mergeS G.providers P.providers
                stacks' := mergeS G.stacks' P.stacks'
                default_model :=
                  if !(P.default_model == "") then P.default_model
                  else G.default_model },
       project_config_path) := by
    simp [load_merged_config, global_config_path, hg, hp]
  have habs : load_merged_config (LayerFile.present gj) LayerFile.absent =
      (G, "~/.config/karl/karl.json") := by
    simp [load_merged_config, global_config_path, hg]
  rw [hred]
  refine ⟨fun k => lookupS_mergeS _ _ k hm, fun k => lookupS_mergeS _ _ k hpr,
    fun k => lookupS_mergeS _ _ k hs, ?_, rfl, by rw [habs]⟩
  by_cases hd : P.default_model = "" <;> simp [hd]

/-- C3 witness: G defines model "a"; P redefines "a" with a different
provider and adds "b"; the merge keeps both with P's entries winning,
takes P's non-empty default, and targets the project file. -/
theorem project_layer_merge_witness :
    decodeKarlConfig (encodeKarlConfig gConf) = some gConf ∧
    (keysS pConf.models).Nodup ∧
    lookupS (load_merged_config (LayerFile.present (encodeKarlConfig gConf))
        (LayerFile.present (encodeKarlConfig pConf))).1.models "a" =
      some ⟨"openai", "p-model", []⟩ ∧
    lookupS (load_merged_config (LayerFile.present (encodeKarlConfig gConf))
        (LayerFile.present (encodeKarlConfig pConf))).1.models "b" =
      some ⟨"openai", "b-model", []⟩ ∧
    (load_merged_config (LayerFile.present (encodeKarlConfig gConf))
        (LayerFile.present (encodeKarlConfig pConf))).1.default_model = "b" ∧
    (load_merged_config (LayerFile.present (encodeKarlConfig gConf))
        (LayerFile.present (encodeKarlConfig pConf))).2 = ".karl.json" := by
  have h := project_layer_merge (encodeKarlConfig gConf) (encodeKarlConfig pConf)
    gConf pConf rfl rfl (by decide) (by decide) (by decide)
  refine ⟨rfl, by decide, ?_, ?_, ?_, ?_⟩
  · rw [h.1 "a"]; rfl
  · rw [h.1 "b"]; rfl
  · rw [h.2.2.2.1]; rfl
  · exact h.2.2.2.2.1


/-! ### C2: apply_filter computes exactly the matching positions -/

theorem map_fst_filter_enumFrom {α : Type} (p : α → Bool) :
    ∀ (l : List α) (n : Nat),
    ((List.enumFrom n l).filter (fun x => p x.2)).map Prod.fst
      = ((List.range l.length).filter
          (fun i => ((l[i]?).map p).getD false)).map (· + n) := by
  intro l
  induction l with
  | nil => intro n; simp
  | cons a tl ih =>
      intro n
      have htail : ((List.enumFrom (n + 1) tl).filter (fun x => p x.2)).map Prod.fst
          = ((List.filter (fun i => ((tl[i]?).map p).getD false)
              (List.range tl.length)).map Nat.succ).map (fun x => x + n) := by
        rw [ih (n + 1), List.map_map]
        refine List.map_congr_left ?_
        intro i _
        simp only [Function.comp_apply, Nat.succ_eq_add_one]
        omega
      simp only [List.enumFrom, List.filter_cons, List.length_cons,
        List.range_succ_eq_map, List.getElem?_cons_zero, List.getElem?_cons_succ,
        Option.map_some', Option.getD_some, List.filter_map, Function.comp_def]
      by_cases hpa : p a
      · simp only [hpa, if_true, List.map_cons, Nat.zero_add]
        rw [htail]
      · simp only [hpa, Bool.false_eq_true, if_false]
        rw [htail]

/-- C2: `apply_filter p` sets the visible indices to exactly the
ordered positions of `items` satisfying `p`; a selection position that
falls out of bounds resets to 0 on a non-empty visible set and to none
on an empty one, an in-bounds position is kept; a subsequent
`clear_filter` restores `len() = total_len()`. -/
theorem apply_filter_spec {α : Type} (l : FilteredList α) (p : α → Bool) :
    (l.apply_filter p).filtered_indices
      = (List.range l.items.length).filter (fun i => ((l.items[i]?).map p).getD false) ∧
    (∀ s, l.list_state = some s →
        (s ≥ (l.apply_filter p).filtered_indices.length →
          (l.apply_filter p).list_state =
            (if (l.apply_filter p).filtered_indices.isEmpty then none else some 0)) ∧
        (s < (l.apply_filter p).filtered_indices.length →
          (l.apply_filter p).list_state = some s)) ∧
    (l.apply_filter p).clear_filter.len = (l.apply_filter p).clear_filter.total_len := by
  have hfi : (l.apply_filter p).filtered_indices
      = (List.range l.items.length).filter
          (fun i => ((l.items[i]?).map p).getD false) := by
    have h0 := map_fst_filter_enumFrom p l.items 0
    simp only [FilteredList.apply_filter]
    simpa using h0
  refine ⟨hfi, ?_, ?_⟩
  · intro s hs
    have hls : (l.apply_filter p).list_state =
        (if s ≥ (l.apply_filter p).filtered_indices.length then
           (if (l.apply_filter p).filtered_indices.isEmpty then none else some 0)
         else some s) := by
      simp only [FilteredList.apply_filter, hs]
    constructor
    · intro hge
      rw [hls, if_pos hge]
    · intro hlt
      rw [hls, if_neg (Nat.not_le.mpr hlt)]
  · simp [FilteredList.clear_filter, FilteredList.len, FilteredList.total_len]

/-- C2 witness: five items, predicate matching positions 1 and 3,
selection at position 0 stays; clear_filter restores the counts. -/
theorem apply_filter_spec_witness :
    c2List.list_state = some 0 ∧
    (0 : Nat) < (c2List.apply_filter c2Pred).filtered_indices.length ∧
    (c2List.apply_filter c2Pred).filtered_indices = [1, 3] ∧
    (c2List.apply_filter c2Pred).list_state = some 0 ∧
    (c2List.apply_filter c2Pred).clear_filter.len =
      (c2List.apply_filter c2Pred).clear_filter.total_len := by
  have h := apply_filter_spec c2List c2Pred
  refine ⟨rfl, by decide, ?_, (h.2.1 0 rfl).2 (by decide), h.2.2⟩
  rw [h.1]; decide


/-! ### C7: navigation selection invariants -/

theorem navStep_filtered_indices {α : Type} (l : FilteredList α) (op : NavOp) :
    (navStep l op).filtered_indices = l.filtered_indices := by
  cases op <;> simp only [navStep, FilteredList.next, FilteredList.previous] <;>
    by_cases h : l.filtered_indices.isEmpty <;> simp [h]

theorem navStep_items {α : Type} (l : FilteredList α) (op : NavOp) :
    (navStep l op).items = l.items := by
  cases op <;> simp only [navStep, FilteredList.next, FilteredList.previous] <;>
    by_cases h : l.filtered_indices.isEmpty <;> simp [h]

theorem navStep_good {α : Type} (l : FilteredList α) (op : NavOp)
    (h : l.filtered_indices ≠ [])
    (hv : ∀ s, l.list_state = some s → s < l.filtered_indices.length) :
    ∃ s, (navStep l op).list_state = some s ∧
      s < (navStep l op).filtered_indices.length := by
  have hne : l.filtered_indices.isEmpty = false := by
    simpa [List.isEmpty_iff] using h
  have hlen : 0 < l.filtered_indices.length := List.length_pos.mpr h
  rw [navStep_filtered_indices]
  cases op
  · simp only [navStep, FilteredList.next, hne, Bool.false_eq_true, if_false]
    cases hls : l.list_state with
    | none => exact ⟨0, by simp [hls], hlen⟩
    | some s =>
        have hvs := hv s hls
        by_cases hge : s ≥ l.filtered_indices.length - 1
        · exact ⟨0, by simp [hls, hge], hlen⟩
        · exact ⟨s + 1, by simp [hls, hge], by omega⟩
  · simp only [navStep, FilteredList.previous, hne, Bool.false_eq_true, if_false]
    cases hls : l.list_state with
    | none => exact ⟨0, by simp [hls], hlen⟩
    | some s =>
        have hvs := hv s hls
        by_cases h0 : s = 0
        · exact ⟨l.filtered_indices.length - 1, by simp [hls, h0], by omega⟩
        · exact ⟨s - 1, by simp [hls, h0], by omega⟩

theorem applyNav_good {α : Type} (ops : List NavOp) : ∀ (l : FilteredList α),
    l.filtered_indices ≠ [] →
    (∃ s, l.list_state = some s ∧ s < l.filtered_indices.length) →
    (∃ s, (applyNav l ops).list_state = some s ∧
        s < (applyNav l ops).filtered_indices.length) ∧
    (applyNav l ops).filtered_indices = l.filtered_indices ∧
    (applyNav l ops).items = l.items := by
  induction ops with
  | nil => intro l _ hg; exact ⟨hg, rfl, rfl⟩
  | cons op rest ih =>
      intro l h hg
      have hv : ∀ s, l.list_state = some s → s < l.filtered_indices.length := by
        intro s hs
        obtain ⟨s', he, hlt⟩ := hg
        rw [hs] at he
        cases he
        exact hlt
      have hgood := navStep_good l op h hv
      have hne' : (navStep l op).filtered_indices ≠ [] := by
        rw [navStep_filtered_indices]; exact h
      have hstep : applyNav l (op :: rest) = applyNav (navStep l op) rest := rfl
      obtain ⟨hg', hfi', hit'⟩ := ih (navStep l op) hne' hgood
      refine ⟨by rw [hstep]; exact hg', ?_, ?_⟩
      · rw [hstep, hfi', navStep_filtered_indices]
      · rw [hstep, hit', navStep_items]

theorem selected_isSome_of_good {α : Type} (l : FilteredList α)
    (hinv : ∀ i ∈ l.filtered_indices, i < l.items.length)
    (hg : ∃ s, l.list_state = some s ∧ s < l.filtered_indices.length) :
    (l.selected).isSome = true := by
  obtain ⟨s, hs, hlt⟩ := hg
  have hidx : l.filtered_indices[s]? = some l.filtered_indices[s] :=
    List.getElem?_eq_getElem hlt
  have hmem : l.filtered_indices[s] ∈ l.filtered_indices := List.getElem_mem hlt
  have hISlt := hinv _ hmem
  simp [FilteredList.selected, hs, hidx, List.getElem?_eq_getElem hISlt]

/-- C7: on a non-empty visible set (with a valid current selection,
which every reachable state has), any finite sequence of next and
previous calls keeps `selected()` equal to `Some`; on an empty visible
set both calls are no-ops and `selected()` is `None`; and from any
valid position, next-then-previous and previous-then-next return the
state unchanged. -/
theorem nav_selection_invariants {α : Type} (l : FilteredList α)
    (hinv : ∀ i ∈ l.filtered_indices, i < l.items.length) :
    (l.filtered_indices ≠ [] →
      (∃ s, l.list_state = some s ∧ s < l.filtered_indices.length) →
      ∀ ops : List NavOp, ((applyNav l ops).selected).isSome = true) ∧
    (l.filtered_indices = [] →
      (∀ ops : List NavOp, applyNav l ops = l) ∧ l.selected = none) ∧
    (∀ s, l.list_state = some s → s < l.filtered_indices.length →
      l.next.previous = l ∧ l.previous.next = l) := by
  refine ⟨?_, ?_, ?_⟩
  · intro h hg ops
    obtain ⟨hg', hfi', hit'⟩ := applyNav_good ops l h hg
    refine selected_isSome_of_good _ ?_ hg'
    intro i hi
    rw [hit']
    exact hinv i (by rwa [hfi'] at hi)
  · intro h
    have hstep : ∀ op, navStep l op = l := by
      intro op
      cases op <;>
        simp [navStep, FilteredList.next, FilteredList.previous, h]
    constructor
    · intro ops
      induction ops with
      | nil => rfl
      | cons op rest ih =>
          have : applyNav l (op :: rest) = applyNav (navStep l op) rest := rfl
          rw [this, hstep op]
          exact ih
    · cases hls : l.list_state with
      | none => simp [FilteredList.selected, hls]
      | some s => simp [FilteredList.selected, hls, h]
  · intro s hs hlt
    have h : l.filtered_indices ≠ [] := by
      intro hc
      rw [hc] at hlt
      simp at hlt
    have hne : l.filtered_indices.isEmpty = false := by
      simpa [List.isEmpty_iff] using h
    constructor
    · simp only [FilteredList.next, FilteredList.previous, hne, Bool.false_eq_true,
        if_false, hs]
      have harith : (if (if s ≥ l.filtered_indices.length - 1 then 0 else s + 1) = 0
          then l.filtered_indices.length - 1
          else (if s ≥ l.filtered_indices.length - 1 then 0 else s + 1) - 1) = s := by
        split_ifs <;> first | omega | simp_all
      rw [harith, ← hs]
    · simp only [FilteredList.previous, FilteredList.next, hne, Bool.false_eq_true,
        if_false, hs]
      have harith : (if (if s = 0 then l.filtered_indices.length - 1 else s - 1) ≥
            l.filtered_indices.length - 1
          then 0
          else (if s = 0 then l.filtered_indices.length - 1 else s - 1) + 1) = s := by
        split_ifs <;> first | omega | simp_all
      rw [harith, ← hs]

/-- C7 witness: on the five-item list, three navigation steps keep the
selection `Some`; on the empty list navigation is a no-op and the
selection is `None`; next-then-previous and previous-then-next restore
the initial state. -/
theorem nav_selection_invariants_witness :
    c2List.filtered_indices ≠ [] ∧
    c2List.list_state = some 0 ∧
    ((applyNav c2List [NavOp.next, NavOp.next, NavOp.previous]).selected).isSome = true ∧
    (applyNav emptyFL [NavOp.next, NavOp.previous] = emptyFL ∧ emptyFL.selected = none) ∧
    (c2List.next.previous = c2List ∧ c2List.previous.next = c2List) := by
  have h := nav_selection_invariants c2List (by decide)
  have he := nav_selection_invariants emptyFL (by decide)
  refine ⟨by decide, rfl, ?_, ?_, ?_⟩
  · exact h.1 (by decide) ⟨0, rfl, by decide⟩ [NavOp.next, NavOp.next, NavOp.previous]
  · exact ⟨(he.2.1 rfl).1 [NavOp.next, NavOp.previous], (he.2.1 rfl).2⟩
  · exact h.2.2 0 rfl (by decide)


/-! ### C1: modal dispatch precedence -/

/-- C1: every input event is consumed exclusively by the
highest-precedence context present, checked in the fixed order Wizard,
ConfirmDialog, FormSession (model, stack, or tool form), SearchInput,
Normal: whenever a context is present and all higher ones are absent,
`handle_key` equals that context's handler, so no lower-precedence
handler (including the global quit/save/section keys, which live in the
Normal tail) runs or mutates state. -/
theorem modal_dispatch_precedence (app : App) (key : KeyEvent) :
    (app.init_wizard.isSome = true →
        app.handle_key key = app.handle_wizard_key key) ∧
    (app.init_wizard = none → app.confirm_dialog.isSome = true →
        app.handle_key key = app.handle_confirm_key key) ∧
    (app.init_wizard = none → app.confirm_dialog = none →
        app.model_form.isSome = true →
        app.handle_key key = app.handle_model_form_key key) ∧
    (app.init_wizard = none → app.confirm_dialog = none → app.model_form = none →
        app.stack_form.isSome = true →
        app.handle_key key = app.handle_stack_form_key key) ∧
    (app.init_wizard = none → app.confirm_dialog = none → app.model_form = none →
        app.stack_form = none → app.tool_form.isSome = true →
        app.handle_key key = app.handle_tool_form_key key) ∧
    (app.init_wizard = none → app.confirm_dialog = none → app.model_form = none →
        app.stack_form = none → app.tool_form = none →
        app.input_mode = InputMode.Search →
        app.handle_key key = app.handle_search_key key) ∧
    (app.init_wizard = none → app.confirm_dialog = none → app.model_form = none →
        app.stack_form = none → app.tool_form = none →
        app.input_mode ≠ InputMode.Search →
        app.handle_key key = app.handle_normal_key key) := by
  refine ⟨?_, ?_, ?_, ?_, ?_, ?_, ?_⟩
  · intro h1; simp [App.handle_key, h1]
  · intro h1 h2; simp [App.handle_key, h1, h2]
  · intro h1 h2 h3; simp [App.handle_key, h1, h2, h3]
  · intro h1 h2 h3 h4; simp [App.handle_key, h1, h2, h3, h4]
  · intro h1 h2 h3 h4 h5; simp [App.handle_key, h1, h2, h3, h4, h5]
  · intro h1 h2 h3 h4 h5 h6; simp [App.handle_key, h1, h2, h3, h4, h5, h6]
  · intro h1 h2 h3 h4 h5 h6; simp [App.handle_key, h1, h2, h3, h4, h5, h6]

/-- C1 witness: for a concrete key, each modal context present in a
concrete state consumes the event via its own handler. -/
theorem modal_dispatch_precedence_witness :
    (wizardCreateModelApp.handle_key (plainKey (KeyCode.char 'q')) =
      wizardCreateModelApp.handle_wizard_key (plainKey (KeyCode.char 'q'))) ∧
    (dialogApp.handle_key (plainKey (KeyCode.char 'q')) =
      dialogApp.handle_confirm_key (plainKey (KeyCode.char 'q'))) ∧
    (modelFormApp.handle_key (plainKey (KeyCode.char 'q')) =
      modelFormApp.handle_model_form_key (plainKey (KeyCode.char 'q'))) ∧
    (stackFormApp.handle_key (plainKey (KeyCode.char 'q')) =
      stackFormApp.handle_stack_form_key (plainKey (KeyCode.char 'q'))) ∧
    (toolFormApp.handle_key (plainKey (KeyCode.char 'q')) =
      toolFormApp.handle_tool_form_key (plainKey (KeyCode.char 'q'))) ∧
    (searchApp.handle_key (plainKey (KeyCode.char 'q')) =
      searchApp.handle_search_key (plainKey (KeyCode.char 'q'))) ∧
    (baseApp.handle_key (plainKey (KeyCode.char 'q')) =
      baseApp.handle_normal_key (plainKey (KeyCode.char 'q'))) :=
  ⟨(modal_dispatch_precedence wizardCreateModelApp _).1 rfl,
   (modal_dispatch_precedence dialogApp _).2.1 rfl rfl,
   (modal_dispatch_precedence modelFormApp _).2.2.1 rfl rfl rfl,
   (modal_dispatch_precedence stackFormApp _).2.2.2.1 rfl rfl rfl rfl,
   (modal_dispatch_precedence toolFormApp _).2.2.2.2.1 rfl rfl rfl rfl rfl,
   (modal_dispatch_precedence searchApp _).2.2.2.2.2.1 rfl rfl rfl rfl rfl rfl,
   (modal_dispatch_precedence baseApp _).2.2.2.2.2.2 rfl rfl rfl rfl rfl
     (by decide)⟩


/-! ### C9: persist-then-load round trip -/

theorem filter_known_eq_self {β : Type} (extra : List (String × β)) (known : List String)
    (h : ∀ k ∈ keysS extra, k ∉ known) :
    extra.filter (fun f => !(known.contains f.1)) = extra := by
  refine List.filter_eq_self.mpr ?_
  intro f hf
  have hm := h f.1 (List.mem_map_of_mem _ hf)
  simpa using hm

theorem decodeOptString_encode (o : Option String) :
    decodeOptString (some (encodeOptString o)) = some o := by
  cases o <;> rfl

theorem decodeOptNum_encode (o : Option Rat) :
    decodeOptNum (some (encodeOptNum o)) = some o := by
  cases o <;> rfl

theorem asU64_natCast (n : Nat) (h : n < 2 ^ 64) :
    asU64? (Json.num (n : Rat)) = some n := by
  have h1 : ((n : Rat)).den = 1 := Rat.den_natCast n
  have h2 : ((n : Rat)).num = (n : Int) := Rat.num_natCast n
  have h3 : ((n : Int)) < 2 ^ 64 := by exact_mod_cast h
  have h4 : n < 18446744073709551616 := by norm_num at h; exact h
  simp [asU64?, h1, h2, h3, h4]

theorem asU32_natCast (n : Nat) (h : n < 2 ^ 32) :
    asU32? (Json.num (n : Rat)) = some n := by
  have h1 : ((n : Rat)).den = 1 := Rat.den_natCast n
  have h2 : ((n : Rat)).num = (n : Int) := Rat.num_natCast n
  have h3 : ((n : Int)) < 2 ^ 32 := by exact_mod_cast h
  have h4 : n < 4294967296 := by norm_num at h; exact h
  simp [asU32?, h1, h2, h3, h4]

theorem decodeOptU64_encode (o : Option Nat) (h : ∀ t, o = some t → t < 2 ^ 64) :
    decodeOptU64 (some (encodeOptNat o)) = some o := by
  cases o with
  | none => rfl
  | some t => simp [decodeOptU64, encodeOptNat, asU64_natCast t (h t rfl)]

theorem decodeOptU32_encode (o : Option Nat) (h : ∀ t, o = some t → t < 2 ^ 32) :
    decodeOptU32 (some (encodeOptNat o)) = some o := by
  cases o with
  | none => rfl
  | some t => simp [decodeOptU32, encodeOptNat, asU32_natCast t (h t rfl)]

theorem decodeOptBool_encode (o : Option Bool) :
    decodeOptBool (some (encodeOptBool o)) = some o := by
  cases o <;> rfl

theorem decode_encode_model (m : ModelConfig) (h : WFModelConfig m) :
    decodeModelConfig (encodeModelConfig m) = some m := by
  have hf : (encodeModelFields m).filter (fun f => !(modelKnownKeys.contains f.1))
      = m.extra := by
    rw [encodeModelFields,
      List.filter_cons_of_neg (by simp [modelKnownKeys]),
      List.filter_cons_of_neg (by simp [modelKnownKeys])]
    exact filter_known_eq_self m.extra modelKnownKeys h
  have h1 : lookupS (encodeModelFields m) "provider" = some (Json.str m.provider) := rfl
  have h2 : lookupS (encodeModelFields m) "model" = some (Json.str m.model) := rfl
  simp only [encodeModelConfig, decodeModelConfig, h1, h2, hf]

theorem decode_encode_provider (p : ProviderConfig) (h : WFProviderConfig p) :
    decodeProviderConfig (encodeProviderConfig p) = some p := by
  have hf : (encodeProviderFields p).filter (fun f => !(providerKnownKeys.contains f.1))
      = p.extra := by
    rw [encodeProviderFields,
      List.filter_cons_of_neg (by simp [providerKnownKeys]),
      List.filter_cons_of_neg (by simp [providerKnownKeys]),
      List.filter_cons_of_neg (by simp [providerKnownKeys]),
      List.filter_cons_of_neg (by simp [providerKnownKeys])]
    exact filter_known_eq_self p.extra providerKnownKeys h
  have h1 : lookupS (encodeProviderFields p) "type"
      = some (Json.str p.provider_type) := rfl
  have h2 : lookupS (encodeProviderFields p) "baseUrl"
      = some (encodeOptString p.base_url) := rfl
  have h3 : lookupS (encodeProviderFields p) "apiKey"
      = some (encodeOptString p.api_key) := rfl
  have h4 : lookupS (encodeProviderFields p) "authType"
      = some (encodeOptString p.auth_type) := rfl
  simp only [encodeProviderConfig, decodeProviderConfig, optStringField,
    h1, h2, h3, h4, decodeOptString_encode, hf]

theorem asStringList_map_str (l : List String) :
    asStringList (l.map Json.str) = some l := by
  induction l with
  | nil => rfl
  | cons a t ih => simp [asStringList, asString?, ih]

theorem decode_encode_tools (t : ToolsConfig) :
    decodeToolsConfig (encodeToolsConfig t) = some t := by
  simp [encodeToolsConfig, decodeToolsConfig, lookupS, asStringList_map_str]

theorem decode_encode_volley (v : VolleyConfig) (h : WFVolleyConfig v) :
    decodeVolleyConfig (encodeVolleyConfig v) = some v := by
  have k1 : lookupS [("maxConcurrent", Json.num (v.max_concurrent : Rat)),
      ("retryAttempts", Json.num (v.retry_attempts : Rat)),
      ("retryBackoff", Json.str v.retry_backoff)] "maxConcurrent"
      = some (Json.num (v.max_concurrent : Rat)) := rfl
  have k2 : lookupS [("maxConcurrent", Json.num (v.max_concurrent : Rat)),
      ("retryAttempts", Json.num (v.retry_attempts : Rat)),
      ("retryBackoff", Json.str v.retry_backoff)] "retryAttempts"
      = some (Json.num (v.retry_attempts : Rat)) := rfl
  have k3 : lookupS [("maxConcurrent", Json.num (v.max_concurrent : Rat)),
      ("retryAttempts", Json.num (v.retry_attempts : Rat)),
      ("retryBackoff", Json.str v.retry_backoff)] "retryBackoff"
      = some (Json.str v.retry_backoff) := rfl
  have m1 : u32FieldOr [("maxConcurrent", Json.num (v.max_concurrent : Rat)),
      ("retryAttempts", Json.num (v.retry_attempts : Rat)),
      ("retryBackoff", Json.str v.retry_backoff)] "maxConcurrent"
      default_max_concurrent = some v.max_concurrent := by
    simp only [u32FieldOr, k1]
    exact asU32_natCast _ h.1
  have m2 : u32FieldOr [("maxConcurrent", Json.num (v.max_concurrent : Rat)),
      ("retryAttempts", Json.num (v.retry_attempts : Rat)),
      ("retryBackoff", Json.str v.retry_backoff)] "retryAttempts"
      default_retry_attempts = some v.retry_attempts := by
    simp only [u32FieldOr, k2]
    exact asU32_natCast _ h.2
  have m3 : strFieldOr [("maxConcurrent", Json.num (v.max_concurrent : Rat)),
      ("retryAttempts", Json.num (v.retry_attempts : Rat)),
      ("retryBackoff", Json.str v.retry_backoff)] "retryBackoff"
      default_retry_backoff = some v.retry_backoff := by
    simp only [strFieldOr, k3]
  simp only [encodeVolleyConfig, decodeVolleyConfig, m1, m2, m3]
  rfl

theorem decode_encode_stack (s : StackConfig) (h : WFStackConfig s) :
    decodeStackConfig (encodeStackConfig s) = some s := by
  have e1 : lookupS (encodeStackFields s) "name"
      = some (encodeOptString s.name) := rfl
  have e2 : lookupS (encodeStackFields s) "extends"
      = some (encodeOptString s.extends') := rfl
  have e3 : lookupS (encodeStackFields s) "model"
      = some (encodeOptString s.model) := rfl
  have e4 : lookupS (encodeStackFields s) "temperature"
      = some (encodeOptNum s.temperature) := rfl
  have e5 : lookupS (encodeStackFields s) "timeout"
      = some (encodeOptNat s.timeout) := rfl
  have e6 : lookupS (encodeStackFields s) "maxTokens"
      = some (encodeOptNat s.max_tokens) := rfl
  have e7 : lookupS (encodeStackFields s) "skill"
      = some (encodeOptString s.skill) := rfl
  have e8 : lookupS (encodeStackFields s) "context"
      = some (encodeOptString s.context) := rfl
  have e9 : lookupS (encodeStackFields s) "contextFile"
      = some (encodeOptString s.context_file) := rfl
  have e10 : lookupS (encodeStackFields s) "unrestricted"
      = some (encodeOptBool s.unrestricted) := rfl
  simp only [encodeStackConfig, decodeStackConfig, optStringField, optNumField,
    optU64Field, optU32Field, optBoolField, e1, e2, e3, e4, e5, e6, e7, e8, e9, e10,
    decodeOptString_encode, decodeOptNum_encode, decodeOptBool_encode,
    decodeOptU64_encode s.timeout h.1, decodeOptU32_encode s.max_tokens h.2]
  rfl

theorem decodeMapGo_roundtrip {β : Type} (dec : Json → Option β) (enc : β → Json) :
    ∀ (l acc : List (String × β)),
    (keysS l).Nodup → (∀ k ∈ keysS l, k ∉ keysS acc) →
    (∀ kv ∈ l, dec (enc kv.2) = some kv.2) →
    decodeMapGo dec acc (l.map (fun kv => (kv.1, enc kv.2))) = some (acc ++ l) := by
  intro l
  induction l with
  | nil => intro acc _ _ _; simp [decodeMapGo]
  | cons hd tl ih =>
      intro acc hnd hdis hdec
      obtain ⟨k0, v0⟩ := hd
      have hd1 : dec (enc v0) = some v0 := hdec (k0, v0) (by simp)
      have hnotacc : k0 ∉ keysS acc := hdis k0 (by simp [keysS])
      simp only [List.map_cons, decodeMapGo, hd1]
      rw [insertS_of_not_mem _ _ _ hnotacc]
      have hnd0 : (k0 :: keysS tl).Nodup := by simpa [keysS] using hnd
      have hdis' : ∀ k ∈ keysS tl, k ∉ keysS (acc ++ [(k0, v0)]) := by
        intro k hk hc
        rw [keysS, List.map_append] at hc
        rcases List.mem_append.mp hc with hc1 | hc2
        · refine hdis k ?_ (by simpa [keysS] using hc1)
          simp only [keysS, List.map_cons, List.mem_cons]
          exact Or.inr (by simpa [keysS] using hk)
        · have hkk : k = k0 := by simpa using hc2
          rw [hkk] at hk
          exact (List.nodup_cons.mp hnd0).1 hk
      have hdec' : ∀ kv ∈ tl, dec (enc kv.2) = some kv.2 :=
        fun kv hkv => hdec kv (List.mem_cons_of_mem _ hkv)
      rw [ih (acc ++ [(k0, v0)]) (List.nodup_cons.mp hnd0).2 hdis' hdec']
      rw [List.append_assoc, List.singleton_append]

theorem decode_encode_config (c : KarlConfig) (h : WFKarlConfig c) :
    decodeKarlConfig (encodeKarlConfig c) = some c := by
  obtain ⟨hmn, hmw, hpn, hpw, hsn, hsw, hv, hex⟩ := h
  have hmodels := decodeMapGo_roundtrip decodeModelConfig encodeModelConfig c.models []
    hmn (by simp [keysS]) (fun kv hkv => decode_encode_model kv.2 (hmw kv hkv))
  have hproviders := decodeMapGo_roundtrip decodeProviderConfig encodeProviderConfig
    c.providers [] hpn (by simp [keysS])
    (fun kv hkv => decode_encode_provider kv.2 (hpw kv hkv))
  have hstacks := decodeMapGo_roundtrip decodeStackConfig encodeStackConfig
    c.stacks' [] hsn (by simp [keysS])
    (fun kv hkv => decode_encode_stack kv.2 (hsw kv hkv))
  have hfilter : (encodeConfigFields c).filter
      (fun f => !(configKnownKeys.contains f.1)) = c.extra := by
    rw [encodeConfigFields,
      List.filter_cons_of_neg (by simp [configKnownKeys]),
      List.filter_cons_of_neg (by simp [configKnownKeys]),
      List.filter_cons_of_neg (by simp [configKnownKeys]),
      List.filter_cons_of_neg (by simp [configKnownKeys]),
      List.filter_cons_of_neg (by simp [configKnownKeys]),
      List.filter_cons_of_neg (by simp [configKnownKeys])]
    exact filter_known_eq_self c.extra configKnownKeys hex
  simp only [List.nil_append] at hmodels hproviders hstacks
  have k1 : lookupS (encodeConfigFields c) "defaultModel"
      = some (Json.str c.default_model) := rfl
  have k2 : lookupS (encodeConfigFields c) "models"
      = some (Json.obj (c.models.map (fun kv => (kv.1, encodeModelConfig kv.2)))) := rfl
  have k3 : lookupS (encodeConfigFields c) "providers"
      = some (Json.obj (c.providers.map
          (fun kv => (kv.1, encodeProviderConfig kv.2)))) := rfl
  have k4 : lookupS (encodeConfigFields c) "tools"
      = some (encodeToolsConfig c.tools) := rfl
  have k5 : lookupS (encodeConfigFields c) "volley"
      = some (encodeVolleyConfig c.volley) := rfl
  have k6 : lookupS (encodeConfigFields c) "stacks"
      = some (Json.obj (c.stacks'.map (fun kv => (kv.1, encodeStackConfig kv.2)))) := rfl
  simp only [encodeKarlConfig, decodeKarlConfig, dmField, mapField, toolsField,
    volleyField, k1, k2, k3, k4, k5, k6,
    hmodels, hproviders, hstacks, decode_encode_tools,
    decode_encode_volley c.volley hv, hfilter]
  rfl


theorem asU64_bound (j : Json) (n : Nat) (h : asU64? j = some n) : n < 2 ^ 64 := by
  cases j
  case num q =>
    simp only [asU64?] at h
    split at h
    · rename_i hc
      obtain ⟨h1, h2, h3⟩ := hc
      injection h with h4
      have h5 : (2 : Int) ^ 64 = 18446744073709551616 := by norm_num
      rw [h5] at h3
      have h6 : (2 : Nat) ^ 64 = 18446744073709551616 := by norm_num
      rw [h6]
      omega
    · exact Option.noConfusion h
  all_goals exact Option.noConfusion h

theorem asU32_bound (j : Json) (n : Nat) (h : asU32? j = some n) : n < 2 ^ 32 := by
  cases j
  case num q =>
    simp only [asU32?] at h
    split at h
    · rename_i hc
      obtain ⟨h1, h2, h3⟩ := hc
      injection h with h4
      have h5 : (2 : Int) ^ 32 = 4294967296 := by norm_num
      rw [h5] at h3
      have h6 : (2 : Nat) ^ 32 = 4294967296 := by norm_num
      rw [h6]
      omega
    · exact Option.noConfusion h
  all_goals exact Option.noConfusion h

theorem decodeOptU64_bound (x : Option Json) (o : Option Nat)
    (h : decodeOptU64 x = some o) : ∀ t, o = some t → t < 2 ^ 64 := by
  intro t ht
  subst ht
  cases x with
  | none =>
      injection h with h'
      exact Option.noConfusion h'
  | some jv =>
      cases jv
      case null =>
        injection h with h'
        exact Option.noConfusion h'
      case num q =>
        simp only [decodeOptU64] at h
        cases ha : asU64? (Json.num q) with
        | none =>
            rw [ha] at h
            exact Option.noConfusion h
        | some m =>
            rw [ha] at h
            simp only [Option.map_some', Option.some.injEq] at h
            subst h
            exact asU64_bound _ _ ha
      all_goals exact Option.noConfusion h

theorem decodeOptU32_bound (x : Option Json) (o : Option Nat)
    (h : decodeOptU32 x = some o) : ∀ t, o = some t → t < 2 ^ 32 := by
  intro t ht
  subst ht
  cases x with
  | none =>
      injection h with h'
      exact Option.noConfusion h'
  | some jv =>
      cases jv
      case null =>
        injection h with h'
        exact Option.noConfusion h'
      case num q =>
        simp only [decodeOptU32] at h
        cases ha : asU32? (Json.num q) with
        | none =>
            rw [ha] at h
            exact Option.noConfusion h
        | some m =>
            rw [ha] at h
            simp only [Option.map_some', Option.some.injEq] at h
            subst h
            exact asU32_bound _ _ ha
      all_goals exact Option.noConfusion h

theorem u32FieldOr_bound (fields : List (String × Json)) (k : String) (d n : Nat)
    (hd : d < 2 ^ 32) (h : u32FieldOr fields k d = some n) : n < 2 ^ 32 := by
  unfold u32FieldOr at h
  cases hl : lookupS fields k with
  | none =>
      rw [hl] at h
      injection h with h'
      exact h' ▸ hd
  | some jv =>
      rw [hl] at h
      exact asU32_bound jv n h

theorem decodeModelConfig_wf (j : Json) (m : ModelConfig)
    (h : decodeModelConfig j = some m) : WFModelConfig m := by
  cases j
  case obj fields =>
    simp only [decodeModelConfig] at h
    split at h
    · injection h with h'
      subst h'
      intro k hk
      simp only [keysS, List.mem_map] at hk
      obtain ⟨f, hf, rfl⟩ := hk
      simpa using (List.mem_filter.mp hf).2
    · exact Option.noConfusion h
  all_goals exact Option.noConfusion h

theorem decodeProviderConfig_wf (j : Json) (p : ProviderConfig)
    (h : decodeProviderConfig j = some p) : WFProviderConfig p := by
  cases j
  case obj fields =>
    simp only [decodeProviderConfig] at h
    split at h
    · injection h with h'
      subst h'
      intro k hk
      simp only [keysS, List.mem_map] at hk
      obtain ⟨f, hf, rfl⟩ := hk
      simpa using (List.mem_filter.mp hf).2
    · exact Option.noConfusion h
  all_goals exact Option.noConfusion h

theorem decodeStackConfig_wf (j : Json) (s : StackConfig)
    (h : decodeStackConfig j = some s) : WFStackConfig s := by
  cases j
  case obj fields =>
    simp only [decodeStackConfig, Option.pure_def, Option.bind_eq_bind,
      Option.bind_eq_some, Option.some.injEq] at h
    obtain ⟨n1, h1, n2, h2, n3, h3, n4, h4, n5, h5, n6, h6, n7, h7, n8, h8, n9, h9,
      n10, h10, heq⟩ := h
    subst heq
    exact ⟨decodeOptU64_bound _ _ h5, decodeOptU32_bound _ _ h6⟩
  all_goals exact Option.noConfusion h

theorem decodeVolleyConfig_wf (j : Json) (v : VolleyConfig)
    (h : decodeVolleyConfig j = some v) : WFVolleyConfig v := by
  cases j
  case obj fields =>
    simp only [decodeVolleyConfig, Option.pure_def, Option.bind_eq_bind,
      Option.bind_eq_some, Option.some.injEq] at h
    obtain ⟨mc, hmc, ra, hra, rb, hrb, heq⟩ := h
    subst heq
    exact ⟨u32FieldOr_bound _ _ _ _ (by norm_num [default_max_concurrent]) hmc,
           u32FieldOr_bound _ _ _ _ (by norm_num [default_retry_attempts]) hra⟩
  all_goals exact Option.noConfusion h

theorem decodeMapGo_wf {β : Type} (P : β → Prop) (dec : Json → Option β)
    (hdec : ∀ j b, dec j = some b → P b) :
    ∀ (ms : List (String × Json)) (acc l : List (String × β)),
    (keysS acc).Nodup → (∀ kv ∈ acc, P kv.2) →
    decodeMapGo dec acc ms = some l →
    (keysS l).Nodup ∧ (∀ kv ∈ l, P kv.2) := by
  intro ms
  induction ms with
  | nil =>
      intro acc l hn hp he
      simp only [decodeMapGo, Option.some.injEq] at he
      subst he
      exact ⟨hn, hp⟩
  | cons hd tl ih =>
      intro acc l hn hp he
      obtain ⟨k0, j0⟩ := hd
      simp only [decodeMapGo] at he
      cases hdj : dec j0 with
      | none =>
          rw [hdj] at he
          exact Option.noConfusion he
      | some v =>
          rw [hdj] at he
          refine ih (insertS acc k0 v) l (nodup_keysS_insertS _ _ _ hn) ?_ he
          intro kv hkv
          rcases mem_insertS _ _ _ _ hkv with h' | h'
          · exact hp kv h'
          · rw [h']
            exact hdec j0 v hdj

theorem mapField_wf {β : Type} (P : β → Prop) (dec : Json → Option β)
    (hdec : ∀ j b, dec j = some b → P b) (fields : List (String × Json))
    (k : String) (l : List (String × β)) (h : mapField dec fields k = some l) :
    (keysS l).Nodup ∧ ∀ kv ∈ l, P kv.2 := by
  unfold mapField at h
  cases hl : lookupS fields k with
  | none =>
      rw [hl] at h
      injection h with h'
      subst h'
      exact ⟨by simp [keysS], by simp⟩
  | some jv =>
      rw [hl] at h
      cases jv
      case obj ms =>
        exact decodeMapGo_wf P dec hdec ms [] l (by simp [keysS]) (by simp) h
      all_goals exact Option.noConfusion h

theorem volleyField_wf (fields : List (String × Json)) (v : VolleyConfig)
    (h : volleyField fields = some v) : WFVolleyConfig v := by
  unfold volleyField at h
  cases hl : lookupS fields "volley" with
  | none =>
      rw [hl] at h
      injection h with h'
      subst h'
      refine ⟨?_, ?_⟩ <;>
        norm_num [VolleyConfig.default, default_max_concurrent,
          default_retry_attempts]
  | some jv =>
      rw [hl] at h
      exact decodeVolleyConfig_wf jv v h

theorem decodeKarlConfig_wf (j : Json) (c : KarlConfig)
    (h : decodeKarlConfig j = some c) : WFKarlConfig c := by
  cases j
  case obj fields =>
    simp only [decodeKarlConfig, Option.pure_def, Option.bind_eq_bind,
      Option.bind_eq_some, Option.some.injEq] at h
    obtain ⟨dm, hdm, models, hmodels, providers, hproviders, tools, htools,
      volley, hvolley, stackMap, hstacks, heq⟩ := h
    subst heq
    have hm := mapField_wf WFModelConfig decodeModelConfig decodeModelConfig_wf
      fields "models" models hmodels
    have hpr := mapField_wf WFProviderConfig decodeProviderConfig
      decodeProviderConfig_wf fields "providers" providers hproviders
    have hsm := mapField_wf WFStackConfig decodeStackConfig decodeStackConfig_wf
      fields "stacks" stackMap hstacks
    have hv := volleyField_wf fields volley hvolley
    refine ⟨hm.1, hm.2, hpr.1, hpr.2, hsm.1, hsm.2, hv, ?_⟩
    intro k hk
    simp only [keysS, List.mem_map] at hk
    obtain ⟨f, hf, rfl⟩ := hk
    simpa using (List.mem_filter.mp hf).2
  all_goals exact Option.noConfusion h

theorem WFKarlConfig_default : WFKarlConfig KarlConfig.default := by
  refine ⟨by simp [KarlConfig.default, keysS], by simp [KarlConfig.default],
    by simp [KarlConfig.default, keysS], by simp [KarlConfig.default],
    by simp [KarlConfig.default, keysS], by simp [KarlConfig.default],
    ⟨by norm_num [KarlConfig.default, VolleyConfig.default, default_max_concurrent],
     by norm_num [KarlConfig.default, VolleyConfig.default, default_retry_attempts]⟩,
    by simp [KarlConfig.default, keysS]⟩

theorem WF_merged_record (G P : KarlConfig) (hg : WFKarlConfig G)
    (hp : WFKarlConfig P) (dm : String) :
    WFKarlConfig { G with models := mergeS G.models P.models,
                          providers := mergeS G.providers P.providers,
                          stacks' := mergeS G.stacks' P.stacks',
                          default_model := dm } := by
  obtain ⟨g1, g2, g3, g4, g5, g6, g7, g8⟩ := hg
  obtain ⟨p1, p2, p3, p4, p5, p6, _, _⟩ := hp
  refine ⟨nodup_keysS_mergeS _ _ g1, ?_, nodup_keysS_mergeS _ _ g3, ?_,
    nodup_keysS_mergeS _ _ g5, ?_, g7, g8⟩
  · intro kv hkv
    rcases mem_mergeS _ _ _ hkv with h' | h'
    · exact g2 kv h'
    · exact p2 kv h'
  · intro kv hkv
    rcases mem_mergeS _ _ _ hkv with h' | h'
    · exact g4 kv h'
    · exact p4 kv h'
  · intro kv hkv
    rcases mem_mergeS _ _ _ hkv with h' | h'
    · exact g6 kv h'
    · exact p6 kv h'

theorem load_merged_wf (g p : LayerFile) :
    WFKarlConfig (load_merged_config g p).1 := by
  cases g with
  | absent =>
      cases p with
      | absent => exact WFKarlConfig_default
      | unreadable => exact WFKarlConfig_default
      | present j =>
          simp only [load_merged_config, global_config_path]
          cases heq : decodeKarlConfig j with
          | some pc =>
              exact WF_merged_record _ _ WFKarlConfig_default
                (decodeKarlConfig_wf j pc heq) _
          | none => exact WFKarlConfig_default
  | unreadable =>
      cases p with
      | absent => exact WFKarlConfig_default
      | unreadable => exact WFKarlConfig_default
      | present j =>
          simp only [load_merged_config, global_config_path]
          cases heq : decodeKarlConfig j with
          | some pc =>
              exact WF_merged_record _ _ WFKarlConfig_default
                (decodeKarlConfig_wf j pc heq) _
          | none => exact WFKarlConfig_default
  | present gj =>
      cases p with
      | absent =>
          simp only [load_merged_config, global_config_path]
          cases hgq : decodeKarlConfig gj with
          | some gc => exact decodeKarlConfig_wf gj gc hgq
          | none => exact WFKarlConfig_default
      | unreadable =>
          simp only [load_merged_config, global_config_path]
          cases hgq : decodeKarlConfig gj with
          | some gc => exact decodeKarlConfig_wf gj gc hgq
          | none => exact WFKarlConfig_default
      | present pj =>
          simp only [load_merged_config, global_config_path]
          cases hpq : decodeKarlConfig pj with
          | some pc =>
              cases hgq : decodeKarlConfig gj with
              | some gc =>
                  exact WF_merged_record _ _ (decodeKarlConfig_wf gj gc hgq)
                    (decodeKarlConfig_wf pj pc hpq) _
              | none =>
                  exact WF_merged_record _ _ WFKarlConfig_default
                    (decodeKarlConfig_wf pj pc hpq) _
          | none =>
              cases hgq : decodeKarlConfig gj with
              | some gc => exact decodeKarlConfig_wf gj gc hgq
              | none => exact WFKarlConfig_default

/-- C9: persist followed by load is a round trip.  Every configuration
obtainable from `load_merged_config` (any combination of layers), once
serialized the way `save_config` serializes it (the serde encoding;
serde_json's value-to-text layer is the external library's bijection)
and parsed back by `load_config`, reproduces an equal configuration,
unknown extra fields on the configuration and on model and provider
entries included. -/
theorem persist_load_roundtrip (g p : LayerFile) :
    load_config (LayerFile.present (encodeKarlConfig (load_merged_config g p).1)) =
      some (load_merged_config g p).1 :=
  decode_encode_config _ (load_merged_wf g p)

end Karl
